import Mathlib

/-!
# KisResourceLocator: resource location and cache synchronisation

A shallow embedding of `libs/resources/KisResourceLocator.cpp`.

The locator's private data (`KisResourceLocator::Private`), the filesystem and
the cache database are explicit state, threaded through every operation.  The
collaborators whose code is outside the file (Qt's filesystem classes, the
`KisResourceCacheDb` operations, the storage backends, the loader registry, the
configuration and the version string) appear as the fields of `Env`; their
failures are decided there, so that every branch of the source is reachable.
Each call into a collaborator that can change something is recorded in
`World.trace`, in the order in which the source makes the calls.

Conventions of the embedding:
* a loop of the source is a recursive function named after its method, and the
  straight-line code of a method that returns early is cut at the returns;
* the `i18n` texts are the constructors of `Message` and `Progress`, which keep
  the arguments of the templates and leave the wording to the translation;
* the filesystem is a finite map from cleaned paths to directories and files;
  queries (`exists`, `isWritable`, listings) read it as it is at the moment of
  the call, and listings come in the order of the map;
* `resource` answers `none` where the source runs into its `Q_ASSERT`.
-/

set_option autoImplicit false
set_option maxRecDepth 100000

namespace KisResourceLocator

/-! ## Data model -/

/-- The shared pointer `KoResourceSP`: `none` is the null pointer, `some n` points
to the resource object with identity `n`. -/
abbrev KoResourceSP := Option Nat

/-- The two kinds of storage the locator distinguishes
(`KisResourceStorage::StorageType::Folder` against everything else). -/
inductive StorageType
  | Folder
  | Archive
deriving DecidableEq, Repr

/-- A storage backend, as far as the locator looks at it: `location()` and `type()`. -/
structure KisResourceStorage where
  location : String
  type : StorageType
deriving DecidableEq, Repr

/-- The result codes `KisResourceLocator::LocatorError`. -/
inductive LocatorError
  | Ok
  | LocationReadOnly
  | CannotCreateLocation
  | CannotInitializeDb
  | CannotSynchronizeDb
deriving DecidableEq, Repr

/-- The initialisation states `InitalizationStatus` (spelled as in the source). -/
inductive InitalizationStatus
  | Unknown
  | Initialized
  | FirstRun
  | FirstUpdate
  | Updating
deriving DecidableEq, Repr

/-- The texts appended to `d->errorMessages`, one constructor per `i18n` template
of the source, carrying the template's arguments. -/
inductive Message
  | couldNotCreateLocation1 (location : String)
  | locationNotWritable2 (location : String)
  | couldNotCreateLocation3 (dirPath : String)
  | couldNotCopyResource (fileName destination : String)
  | couldNotAddStorage (location : String)
  | couldNotAddResourceType (resourceType : String)
  | couldNotAddTags (resourceType : String)
  | couldNotSynchronize (location : String)
deriving DecidableEq, Repr

/-- The texts sent through the signal `progressMessage`. -/
inductive Progress
  | runningFirstTime
  | installingBundle (filePath : String)
  | initializingResources
  | addingResources (resourceType location : String)
deriving DecidableEq, Repr

/-- The calls the locator makes into its collaborators, with their outcome. -/
inductive Event
  | progressMessage (m : Progress)
  | mkpath (path : String) (ok : Bool)
  | copy (source destination : String) (ok : Bool)
  | writeFile (path content : String) (ok : Bool)
  | storageResource (storage resourceLocation : String)
  | qWarning (text : String)
  | addStorage (location : String) (preinstalled ok : Bool)
  | addResources (location resourceType : String) (ok : Bool)
  | addTags (location resourceType : String) (ok : Bool)
  | synchronizeStorage (location : String) (ok : Bool)
  | dbRemoveResource (resourceId : Int) (ok : Bool)
deriving DecidableEq, Repr

/-! ## The filesystem -/

/-- An entry of the filesystem: a directory or a regular file. -/
inductive Node
  | dir (writable : Bool)
  | file (content : String) (readable writable : Bool)
deriving DecidableEq, Repr

/-- The filesystem: the entries by their path (written without a trailing
slash).  A directory entry stands for the directory with its chain of parents,
which the locator never inspects. -/
abbrev FileSystem := List (String × Node)

/-- The entry at a path, if there is one. -/
def FileSystem.find (fs : FileSystem) (path : String) : Option Node :=
  match fs with
  | [] => none
  | (p, n) :: rest => if p = path then some n else FileSystem.find rest path

/-- Put an entry at a path: in place of the entry there, or as a new entry. -/
def FileSystem.set (fs : FileSystem) (path : String) (node : Node) : FileSystem :=
  match fs with
  | [] => [(path, node)]
  | (p, n) :: rest =>
    if p = path then (p, node) :: rest else (p, n) :: FileSystem.set rest path node

/-! ## The cache database -/

/-- A row of the table `storages`. -/
structure StorageRow where
  id : Int
  location : String
deriving DecidableEq, Repr

/-- A row of the table `resources`. -/
structure ResourceRow where
  id : Int
  filename : String
  storage_id : Int
deriving DecidableEq, Repr

/-- The tables of the cache database that the locator queries itself. -/
structure Db where
  storages : List StorageRow
  resources : List ResourceRow
deriving DecidableEq, Repr

/-! ## The locator's state -/

/-- The class `KisResourceLocator::Private`.  `storages` is the `QMap` from a
location to its storage, kept in key order; `resourceCache` is the `QHash` from
`(storageLocation, resourceLocation)` to the cached handle. -/
structure Private where
  resourceLocation : String
  storages : List (String × KisResourceStorage)
  resourceCache : List ((String × String) × KoResourceSP)
  errorMessages : List Message
deriving DecidableEq, Repr

/-- Everything an operation of the locator can read or change. -/
structure World where
  d : Private
  fs : FileSystem
  db : Db
  trace : List Event
deriving DecidableEq, Repr

/-- `QVersionNumber`: the list of its segments. -/
abbrev QVersionNumber := List Int

/-- The collaborators, and the outcome of every call that can fail. -/
structure Env where
  /-- the configuration entry `ResourceDirectory`, when it is set -/
  resourceDirectory : Option String
  /-- the value of `QStandardPaths::writableLocation(AppDataLocation)` -/
  appDataLocation : String
  /-- the value of `KritaVersionWrapper::versionString()` -/
  versionString : String
  /-- the function `QVersionNumber::fromString` -/
  versionFromString : String → QVersionNumber
  /-- the value of `KisResourceLoaderRegistry::instance()->resourceTypes()` -/
  resourceTypes : List String
  /-- whether the system lets `QDir::mkpath` create the directory -/
  mkpathOk : String → Bool
  /-- whether a directory created at the path comes out writable -/
  newDirWritable : String → Bool
  /-- whether the system lets `QFile::copy` write the destination -/
  copyOk : String → String → Bool
  /-- whether `QFile::open(WriteOnly)` succeeds on the path -/
  openWriteOk : String → Bool
  /-- the method `KisResourceStorage::resource`, after the calls made so far -/
  storageResource : List Event → FileSystem → KisResourceStorage → String → KoResourceSP
  /-- whether `QSqlQuery::prepare` succeeds -/
  prepareOk : Db → Bool
  /-- whether `QSqlQuery::exec` succeeds -/
  execOk : Db → Int → Bool
  /-- the function `KisResourceCacheDb::addStorage` -/
  addStorage : FileSystem → Db → KisResourceStorage → Bool → Db × Bool
  /-- the function `KisResourceCacheDb::addResources` -/
  addResources : FileSystem → Db → KisResourceStorage → String → Db × Bool
  /-- the function `KisResourceCacheDb::addTags` -/
  addTags : FileSystem → Db → KisResourceStorage → String → Db × Bool
  /-- the function `KisResourceCacheDb::synchronizeStorage` -/
  synchronizeStorage : FileSystem → Db → KisResourceStorage → Db × Bool
  /-- the function `KisResourceCacheDb::removeResource` -/
  dbRemoveResource : Db → Int → Db × Bool

/-- Record a call in the trace. -/
def World.emit (w : World) (e : Event) : World :=
  { w with trace := w.trace ++ [e] }

/-- The statement `d->errorMessages << m`. -/
def World.error (w : World) (m : Message) : World :=
  { w with d := { w.d with errorMessages := w.d.errorMessages ++ [m] } }

/-! ## QHash and QMap -/

/-- The method `QHash::contains`. -/
def QHash.contains {κ υ : Type} [DecidableEq κ] (h : List (κ × υ)) (key : κ) : Bool :=
  match h with
  | [] => false
  | (k, _) :: rest => if k = key then true else QHash.contains rest key

/-- The value `h[key]` of a `QHash` of shared pointers: the stored pointer, or the
null pointer when the key is absent. -/
def QHash.value {κ υ : Type} [DecidableEq κ] (h : List (κ × Option υ)) (key : κ) : Option υ :=
  match h with
  | [] => none
  | (k, v) :: rest => if k = key then v else QHash.value rest key

/-- The method `QHash::remove`: drops the key, answers how many entries went. -/
def QHash.remove {κ υ : Type} [DecidableEq κ] (h : List (κ × υ)) (key : κ) : List (κ × υ) × Nat :=
  (h.filter (fun e => decide (e.1 ≠ key)), (h.filter (fun e => decide (e.1 = key))).length)

/-- The assignment `h[key] = v`. -/
def QHash.insert {κ υ : Type} [DecidableEq κ] (h : List (κ × υ)) (key : κ) (v : υ) : List (κ × υ) :=
  (key, v) :: (QHash.remove h key).1

/-- The lookup in the `QMap` of storages (`contains` and `operator[]` in one). -/
def QMap.find (m : List (String × KisResourceStorage)) (key : String) : Option KisResourceStorage :=
  match m with
  | [] => none
  | (k, v) :: rest => if k = key then some v else QMap.find rest key

/-- The assignment `m[key] = v` on the `QMap` of storages, which keeps its entries
in ascending key order. -/
def QMap.insert (m : List (String × KisResourceStorage)) (key : String) (v : KisResourceStorage) :
    List (String × KisResourceStorage) :=
  match m with
  | [] => [(key, v)]
  | (k, x) :: rest =>
    if key.data < k.data then (key, v) :: (k, x) :: rest
    else if key = k then (key, v) :: rest
    else (k, x) :: QMap.insert rest key v

/-! ## Qt's view of the filesystem -/

/-- The cleaning `QDir` applies to the paths the locator builds: a trailing slash
is dropped. -/
def cleanPath (path : String) : String :=
  if 1 < path.data.length ∧ path.data.getLast? = some '/' then String.mk path.data.dropLast
  else path

/-- The remainder of a path after a leading part, when the path starts with it. -/
def stripDir : List Char → List Char → Option (List Char)
  | [], rest => some rest
  | _ :: _, [] => none
  | p :: ps, c :: cs => if p = c then stripDir ps cs else none

/-- The last component of a path (`fileName()`). -/
def fileName (path : String) : String :=
  String.mk (path.data.reverse.takeWhile (fun c => decide (c ≠ '/'))).reverse

/-- The name filters `*.bundle`, `*.abr`, `*.asl` of the two `QDirIterator`s; a
`QDirIterator` without `QDir::CaseSensitive` matches them ignoring case. -/
def matchesArchiveFilters (name : String) : Bool :=
  [".bundle", ".abr", ".asl"].any
    (fun ext => ext.data.isSuffixOf (name.data.map Char.toLower))

/-- The method `QFileInfo::exists` (also `QFile::exists`). -/
def QFileInfo.exists (fs : FileSystem) (path : String) : Bool :=
  (fs.find (cleanPath path)).isSome

/-- The method `QFileInfo::isWritable`, asked of the filesystem as it is at the call. -/
def QFileInfo.isWritable (fs : FileSystem) (path : String) : Bool :=
  match fs.find (cleanPath path) with
  | some (Node.dir writable) => writable
  | some (Node.file _ _ writable) => writable
  | none => false

/-- The method `QDir::exists`: the path is a directory. -/
def QDir.exists (fs : FileSystem) (path : String) : Bool :=
  match fs.find (cleanPath path) with
  | some (Node.dir _) => true
  | _ => false

/-- The method `QDir::mkpath`: succeeds at once on a directory, fails on a file,
and otherwise creates the directory if the system lets it. -/
def QDir.mkpath (env : Env) (fs : FileSystem) (path : String) : FileSystem × Bool :=
  match fs.find (cleanPath path) with
  | some (Node.dir _) => (fs, true)
  | some (Node.file _ _ _) => (fs, false)
  | none =>
    if env.mkpathOk (cleanPath path) then
      (fs.set (cleanPath path) (Node.dir (env.newDirWritable (cleanPath path))), true)
    else (fs, false)

/-- The call `dir.entryList(QDir::Files | QDir::Readable)`: the names of the
readable files directly in the directory, in the order of the listing. -/
def QDir.entryList (fs : FileSystem) (dir : String) : List String :=
  fs.filterMap (fun e =>
    match e.2, stripDir (cleanPath dir ++ "/").data e.1.data with
    | Node.file _ true _, some name =>
      if name ≠ [] ∧ '/' ∉ name then some (String.mk name) else none
    | _, _ => none)

/-- The run of `QDirIterator(path, filters, QDir::Files, QDirIterator::Subdirectories)`:
the `(filePath, fileName)` of every file below the path whose name matches the
archive filters, in the order of the listing. -/
def QDirIterator.entries (fs : FileSystem) (path : String) : List (String × String) :=
  fs.filterMap (fun e =>
    match e.2, stripDir (cleanPath path ++ "/").data e.1.data with
    | Node.file _ _ _, some _ =>
      if matchesArchiveFilters (fileName e.1) then some (e.1, fileName e.1) else none
    | _, _ => none)

/-- The method `QFile::copy`: never overwrites an existing destination, needs a
readable source file, and otherwise writes the copy if the system lets it. -/
def QFile.copy (env : Env) (fs : FileSystem) (source destination : String) : FileSystem × Bool :=
  match fs.find source, fs.find destination with
  | some (Node.file content true writable), none =>
    if env.copyOk source destination then
      (fs.set destination (Node.file content true writable), true)
    else (fs, false)
  | _, _ => (fs, false)

/-- The sequence `f.open(QFile::WriteOnly); f.write(content); f.close()`, none of
whose results the source checks. -/
def QFile.writeAll (env : Env) (fs : FileSystem) (path content : String) : FileSystem × Bool :=
  match fs.find path with
  | some (Node.dir _) => (fs, false)
  | some (Node.file _ readable writable) =>
    if env.openWriteOk path then (fs.set path (Node.file content readable writable), true)
    else (fs, false)
  | none =>
    if env.openWriteOk path then (fs.set path (Node.file content true true), true)
    else (fs, false)

/-- The sequence `f.open(QFile::ReadOnly); f.readAll()`: the content of a readable
file, and nothing when the file cannot be opened. -/
def QFile.readAll (fs : FileSystem) (path : String) : String :=
  match fs.find path with
  | some (Node.file content true _) => content
  | _ => ""

/-- The function `QVersionNumber::compare`: segment by segment over the common
length, then the longer number by the sign of its next segment. -/
def QVersionNumber.compare : QVersionNumber → QVersionNumber → Int
  | [], [] => 0
  | a :: _, [] => if a ≠ 0 then a else 1
  | [], b :: _ => if b ≠ 0 then -b else -1
  | a :: as, b :: bs => if a ≠ b then a - b else QVersionNumber.compare as bs

/-- The operator `v1 > v2` on version numbers. -/
def QVersionNumber.gt (v1 v2 : QVersionNumber) : Bool :=
  decide (QVersionNumber.compare v1 v2 > 0)

/-- A call of `QDir().mkpath(path)` by the locator. -/
def World.mkpath (env : Env) (path : String) (w : World) : Bool × World :=
  ((QDir.mkpath env w.fs path).2,
    ({ w with fs := (QDir.mkpath env w.fs path).1 }).emit
      (Event.mkpath (cleanPath path) (QDir.mkpath env w.fs path).2))

/-- A call of `f.copy(destination)` on `QFile f(source)` by the locator. -/
def World.copy (env : Env) (source destination : String) (w : World) : Bool × World :=
  ((QFile.copy env w.fs source destination).2,
    ({ w with fs := (QFile.copy env w.fs source destination).1 }).emit
      (Event.copy source destination (QFile.copy env w.fs source destination).2))

/-! ## Resource lookup and cache -/

/-- The method `resourceLocationBase`. -/
def resourceLocationBase (w : World) : String :=
  w.d.resourceLocation

/-- The key normalisation shared by `resourceCached`, `resource` and
`removeResource`: the empty storage location is the resource root, any other is
taken relative to it. -/
def normalizedStorageLocation (w : World) (storageLocation : String) : String :=
  if storageLocation.isEmpty then resourceLocationBase w
  else resourceLocationBase w ++ "/" ++ storageLocation

/-- The method `KisResourceLocator::resourceCached`. -/
def resourceCached (w : World) (storageLocation resourceLocation : String) : Bool :=
  let storageLocation := normalizedStorageLocation w storageLocation
  let key := (storageLocation, resourceLocation)
  QHash.contains w.d.resourceCache key

/-- The method `KisResourceLocator::resource`.  The answer `none` is the fault of
the cache-miss branch when the storage is not registered (the `Q_ASSERT`, and
the null storage pointer that follows it). -/
def resource (env : Env) (storageLocation resourceLocation : String) (w : World) :
    Option (KoResourceSP × World) :=
  let storageLocation := normalizedStorageLocation w storageLocation
  let key := (storageLocation, resourceLocation)
  if QHash.contains w.d.resourceCache key then
    some (QHash.value w.d.resourceCache key, w)
  else
    match QMap.find w.d.storages storageLocation with
    | none => none
    | some storage =>
      let r := env.storageResource w.trace w.fs storage resourceLocation
      let w1 := w.emit (Event.storageResource storage.location resourceLocation)
      match r with
      | some _ =>
        some (r, { w1 with d := { w1.d with resourceCache := QHash.insert w1.d.resourceCache key r } })
      | none => some (r, w1)

/-- The rows of the lookup query of `removeResource`,
`SELECT storages.location, resources.filename FROM resources, storages
WHERE resources.id = :resource_id AND resources.storage_id = storages.id`. -/
def lookupQuery (db : Db) (resourceId : Int) : List (String × String) :=
  db.resources.flatMap (fun r =>
    db.storages.filterMap (fun s =>
      if r.id = resourceId ∧ r.storage_id = s.id then some (s.location, r.filename) else none))

/-- The method `KisResourceLocator::removeResource`.  After `q.first()` the two
`q.value(..).toString()` are the columns of the first row, and empty strings
when the query is not positioned on a row (it failed, or found nothing). -/
def removeResource (env : Env) (resourceId : Int) (w : World) : Bool × World :=
  if !env.prepareOk w.db then
    (false, w.emit (Event.qWarning "KisResourceLocator::removeResource: could not prepare query."))
  else
    let r := env.execOk w.db resourceId
    let w1 :=
      if !r then
        w.emit (Event.qWarning "KisResourceLocator::removeResource: could not execute query.")
      else w
    let row := if r then (lookupQuery w1.db resourceId).head? else none
    let storageLocation := (row.map Prod.fst).getD ""
    let resourceLocation := (row.map Prod.snd).getD ""
    let storageLocation := normalizedStorageLocation w1 storageLocation
    let key := (storageLocation, resourceLocation)
    let w2 := { w1 with d := { w1.d with resourceCache := (QHash.remove w1.d.resourceCache key).1 } }
    let removed := env.dbRemoveResource w2.db resourceId
    (removed.2, ({ w2 with db := removed.1 }).emit (Event.dbRemoveResource resourceId removed.2))

/-! ## Storage discovery and the cache database -/

/-- Modelled from the spec: the constructor of `KisResourceStorage`, whose class
is not part of this file.  A storage is identified by the path it is made for;
it is a folder storage when the path is a directory and an archive storage
otherwise (§3 of the specification). -/
def KisResourceStorage.create (fs : FileSystem) (location : String) : KisResourceStorage :=
  { location := location, type := if QDir.exists fs location then StorageType.Folder else StorageType.Archive }

/-- The loop of `findStorages` over the archives found below the resource root. -/
def findStorages.addArchives (fs : FileSystem) :
    List (String × String) → List (String × KisResourceStorage) → List (String × KisResourceStorage)
  | [], storages => storages
  | (filePath, _) :: rest, storages =>
    findStorages.addArchives fs rest
      (QMap.insert storages (KisResourceStorage.create fs filePath).location
        (KisResourceStorage.create fs filePath))

/-- The method `KisResourceLocator::findStorages`. -/
def findStorages (w : World) : World :=
  let storage := KisResourceStorage.create w.fs w.d.resourceLocation
  let storages := QMap.insert [] storage.location storage
  { w with d := { w.d with storages :=
      findStorages.addArchives w.fs (QDirIterator.entries w.fs w.d.resourceLocation) storages } }

/-- The method `KisResourceLocator::storages`. -/
def storages (w : World) : List KisResourceStorage :=
  w.d.storages.map Prod.snd

/-- The statement `d->errorMessages.clear()`. -/
def World.clearErrors (w : World) : World :=
  { w with d := { w.d with errorMessages := [] } }

/-- The loop of `synchronizeDb` over the storages. -/
def synchronizeDb.loop (env : Env) : List KisResourceStorage → World → World
  | [], w => w
  | storage :: rest, w =>
    let r := env.synchronizeStorage w.fs w.db storage
    let w1 := ({ w with db := r.1 }).emit (Event.synchronizeStorage storage.location r.2)
    let w2 := if !r.2 then w1.error (Message.couldNotSynchronize storage.location) else w1
    synchronizeDb.loop env rest w2

/-- The method `KisResourceLocator::synchronizeDb`. -/
def synchronizeDb (env : Env) (w : World) : Bool × World :=
  let w1 := findStorages w.clearErrors
  let w2 := synchronizeDb.loop env (storages w1) w1
  (w2.d.errorMessages.isEmpty, w2)

/-- The inner loop of `initializeDb`, over the resource types, for one storage. -/
def initializeDb.addTypes (env : Env) (storage : KisResourceStorage) : List String → World → World
  | [], w => w
  | resourceType :: rest, w =>
    let w0 := w.emit (Event.progressMessage (Progress.addingResources resourceType storage.location))
    let r := env.addResources w0.fs w0.db storage resourceType
    let w1 := ({ w0 with db := r.1 }).emit (Event.addResources storage.location resourceType r.2)
    let w2 := if !r.2 then w1.error (Message.couldNotAddResourceType resourceType) else w1
    let t := env.addTags w2.fs w2.db storage resourceType
    let w3 := ({ w2 with db := t.1 }).emit (Event.addTags storage.location resourceType t.2)
    let w4 := if !t.2 then w3.error (Message.couldNotAddTags resourceType) else w3
    initializeDb.addTypes env storage rest w4

/-- The outer loop of `initializeDb`, over the storages. -/
def initializeDb.loop (env : Env) : List KisResourceStorage → World → World
  | [], w => w
  | storage :: rest, w =>
    let preinstalled := if storage.type = StorageType.Folder then false else true
    let r := env.addStorage w.fs w.db storage preinstalled
    let w1 := ({ w with db := r.1 }).emit (Event.addStorage storage.location preinstalled r.2)
    let w2 := if !r.2 then w1.error (Message.couldNotAddStorage storage.location) else w1
    initializeDb.loop env rest (initializeDb.addTypes env storage env.resourceTypes w2)

/-- The method `KisResourceLocator::initializeDb`. -/
def initializeDb (env : Env) (w : World) : Bool × World :=
  let w0 := w.emit (Event.progressMessage Progress.initializingResources)
  let w1 := findStorages w0.clearErrors
  let w2 := initializeDb.loop env (storages w1) w1
  (w2.d.errorMessages.isEmpty, w2)

/-! ## Installation and migration -/

/-- The first loop of `firstTimeInstallation`: make sure every type has its
directory under the resource root.  Answers the type whose directory could not
be created, if there is one. -/
def firstTimeInstallation.createFolders (env : Env) : List String → World → Option String × World
  | [], w => (none, w)
  | folder :: rest, w =>
    if !QDir.exists w.fs (w.d.resourceLocation ++ "/" ++ folder ++ "/") then
      let r := World.mkpath env (w.d.resourceLocation ++ "/" ++ folder ++ "/") w
      if !r.1 then
        (some folder,
          r.2.error (Message.couldNotCreateLocation3
            (cleanPath (w.d.resourceLocation ++ "/" ++ folder ++ "/"))))
      else firstTimeInstallation.createFolders env rest r.2
    else firstTimeInstallation.createFolders env rest w

/-- The loop over the entries of one type directory of the install source. -/
def firstTimeInstallation.copyEntries (env : Env) (sourceDir folder : String) :
    List String → World → World
  | [], w => w
  | entry :: rest, w =>
    if !QFileInfo.exists w.fs (w.d.resourceLocation ++ "/" ++ folder ++ "/" ++ entry) then
      let r := World.copy env (sourceDir ++ "/" ++ entry)
        (w.d.resourceLocation ++ "/" ++ folder ++ "/" ++ entry) w
      let w1 :=
        if !r.1 then
          r.2.error (Message.couldNotCopyResource (sourceDir ++ "/" ++ entry)
            (w.d.resourceLocation ++ "/" ++ folder ++ "/" ++ entry))
        else r.2
      firstTimeInstallation.copyEntries env sourceDir folder rest w1
    else firstTimeInstallation.copyEntries env sourceDir folder rest w

/-- The second loop of `firstTimeInstallation`: copy the resources of every type
from the install source, where the destination does not exist yet.  The source
file is named from `dir.canonicalPath()`, here the cleaned path of the directory. -/
def firstTimeInstallation.copyTypes (env : Env) (installationResourcesLocation : String) :
    List String → World → World
  | [], w => w
  | folder :: rest, w =>
    if QDir.exists w.fs (installationResourcesLocation ++ "/" ++ folder ++ "/") then
      firstTimeInstallation.copyTypes env installationResourcesLocation rest
        (firstTimeInstallation.copyEntries env
          (cleanPath (installationResourcesLocation ++ "/" ++ folder ++ "/")) folder
          (QDir.entryList w.fs (installationResourcesLocation ++ "/" ++ folder ++ "/")) w)
    else firstTimeInstallation.copyTypes env installationResourcesLocation rest w

/-- The third loop of `firstTimeInstallation`: copy the bundles and Adobe
libraries of the install source into the resource root. -/
def firstTimeInstallation.copyArchives (env : Env) : List (String × String) → World → World
  | [], w => w
  | (filePath, name) :: rest, w =>
    let w0 := w.emit (Event.progressMessage (Progress.installingBundle filePath))
    let r := World.copy env filePath (w0.d.resourceLocation ++ "/" ++ name) w0
    let w1 :=
      if !r.1 then r.2.error (Message.couldNotCopyResource filePath w0.d.resourceLocation)
      else r.2
    firstTimeInstallation.copyArchives env rest w1

/-- The writing of the version marker `KRITA_RESOURCE_VERSION`. -/
def firstTimeInstallation.writeMarker (env : Env) (w : World) : World :=
  let r := QFile.writeAll env w.fs (w.d.resourceLocation ++ "/" ++ "KRITA_RESOURCE_VERSION")
    env.versionString
  ({ w with fs := r.1 }).emit
    (Event.writeFile (w.d.resourceLocation ++ "/" ++ "KRITA_RESOURCE_VERSION") env.versionString r.2)

/-- The copy steps of `firstTimeInstallation`, from the second loop up to the
version marker. -/
def firstTimeInstallation.install (env : Env) (installationResourcesLocation : String)
    (w : World) : World :=
  let w1 := firstTimeInstallation.copyTypes env installationResourcesLocation env.resourceTypes w
  let w2 := firstTimeInstallation.copyArchives env
    (QDirIterator.entries w1.fs installationResourcesLocation) w1
  firstTimeInstallation.writeMarker env w2

/-- The method `KisResourceLocator::firstTimeInstallation`. -/
def firstTimeInstallation (env : Env) (initalizationStatus : InitalizationStatus)
    (installationResourcesLocation : String) (w : World) : LocatorError × World :=
  let _ := initalizationStatus
  let w0 := w.emit (Event.progressMessage Progress.runningFirstTime)
  let created := firstTimeInstallation.createFolders env env.resourceTypes w0
  match created.1 with
  | some _ => (LocatorError.CannotCreateLocation, created.2)
  | none =>
    let r := initializeDb env
      (firstTimeInstallation.install env installationResourcesLocation created.2)
    if !r.1 then (LocatorError.CannotInitializeDb, r.2) else (LocatorError.Ok, r.2)

/-! ## Initialisation -/

/-- The check of `initialize` whether the root is being updated from an older
version: the status read off the version marker. -/
def initializeLocator.markerStatus (env : Env) (fs : FileSystem) (resourceLocation : String) :
    InitalizationStatus :=
  if !QFileInfo.exists fs (resourceLocation ++ "/" ++ "KRITA_RESOURCE_VERSION") then
    InitalizationStatus.FirstUpdate
  else
    let resource_version :=
      env.versionFromString (QFile.readAll fs (resourceLocation ++ "/" ++ "KRITA_RESOURCE_VERSION"))
    let krita_version := env.versionFromString env.versionString
    if QVersionNumber.gt krita_version resource_version then InitalizationStatus.Updating
    else InitalizationStatus.Initialized

/-- The last part of `initialize`: installation or synchronisation, by the status. -/
def initializeLocator.run (env : Env) (initalizationStatus : InitalizationStatus)
    (installationResourcesLocation : String) (w : World) : LocatorError × World :=
  if initalizationStatus ≠ InitalizationStatus.Initialized then
    firstTimeInstallation env initalizationStatus installationResourcesLocation w
  else
    let r := synchronizeDb env w
    if !r.1 then (LocatorError.CannotSynchronizeDb, r.2) else (LocatorError.Ok, r.2)

/-- The part of `initialize` after the resource root is known to exist. -/
def initializeLocator.checked (env : Env) (initalizationStatus : InitalizationStatus)
    (installationResourcesLocation : String) (w : World) : LocatorError × World :=
  if !QFileInfo.isWritable w.fs w.d.resourceLocation then
    (LocatorError.LocationReadOnly, w.error (Message.locationNotWritable2 w.d.resourceLocation))
  else
    let status :=
      if initalizationStatus ≠ InitalizationStatus.FirstRun then
        initializeLocator.markerStatus env w.fs w.d.resourceLocation
      else initalizationStatus
    initializeLocator.run env status installationResourcesLocation w

/-- The value of `cfg.readEntry(resourceLocationKey, QStandardPaths::writableLocation(..))`:
the configured resource directory, or else the application data location. -/
def configuredResourceLocation (env : Env) : String :=
  env.resourceDirectory.getD env.appDataLocation

/-- The assignment to `d->resourceLocation`. -/
def World.setResourceLocation (w : World) (location : String) : World :=
  { w with d := { w.d with resourceLocation := location } }

/-- The method `KisResourceLocator::initialize` (the bare name is reserved in Lean). -/
def initializeLocator (env : Env) (installationResourcesLocation : String) (w : World) :
    LocatorError × World :=
  let w0 := w.setResourceLocation (configuredResourceLocation env)
  if !QFileInfo.exists w0.fs w0.d.resourceLocation then
    let r := World.mkpath env w0.d.resourceLocation w0
    if !r.1 then
      (LocatorError.CannotCreateLocation,
        r.2.error (Message.couldNotCreateLocation1 w0.d.resourceLocation))
    else initializeLocator.checked env InitalizationStatus.FirstRun installationResourcesLocation r.2
  else initializeLocator.checked env InitalizationStatus.Unknown installationResourcesLocation w0

/-- The resource root is already initialised: it exists, it is writable, and the
status `initialize` reads off its version marker is `Initialized`. -/
def alreadyInitialized (env : Env) (fs : FileSystem) : Bool :=
  QFileInfo.exists fs (configuredResourceLocation env) &&
    QFileInfo.isWritable fs (configuredResourceLocation env) &&
    decide (initializeLocator.markerStatus env fs (configuredResourceLocation env) =
      InitalizationStatus.Initialized)

/-- The identities of the storages the locator holds: their locations, in the
order of the map. -/
def storageIdentities (w : World) : List String :=
  (storages w).map KisResourceStorage.location

/-- The paths of the archive files (`*.bundle`, `*.abr`, `*.asl`) found at any
depth below a directory. -/
def archiveFiles (fs : FileSystem) (path : String) : List String :=
  (QDirIterator.entries fs path).map Prod.fst

/-- The cache key that `resourceCached`, `resource` and `removeResource` build
from a storage location and a resource location. -/
def cacheKey (w : World) (storageLocation resourceLocation : String) : String × String :=
  (normalizedStorageLocation w storageLocation, resourceLocation)

/-- The keys of a `QMap` of storages are in strictly ascending order. -/
def QMap.Ascending (m : List (String × KisResourceStorage)) : Prop :=
  List.Pairwise (fun a b => a.1.data < b.1.data) m

/-! ## The calls into the cache database -/

/-- A call of one of the bulk operations of `KisResourceCacheDb`. -/
inductive DbCall
  | addStorage (storage : KisResourceStorage) (preinstalled : Bool)
  | addResources (storage : KisResourceStorage) (resourceType : String)
  | addTags (storage : KisResourceStorage) (resourceType : String)
  | synchronizeStorage (storage : KisResourceStorage)
deriving DecidableEq, Repr

/-- What the cache database makes of a call on a given database: the database it
leaves and the answer it gives. -/
def DbCall.ask (env : Env) (fs : FileSystem) (db : Db) : DbCall → Db × Bool
  | DbCall.addStorage storage preinstalled => env.addStorage fs db storage preinstalled
  | DbCall.addResources storage resourceType => env.addResources fs db storage resourceType
  | DbCall.addTags storage resourceType => env.addTags fs db storage resourceType
  | DbCall.synchronizeStorage storage => env.synchronizeStorage fs db storage

/-- What goes on the trace for a call with a given answer (`addResources` is
announced by a progress message first). -/
def DbCall.events : DbCall → Bool → List Event
  | DbCall.addStorage storage preinstalled, ok =>
    [Event.addStorage storage.location preinstalled ok]
  | DbCall.addResources storage resourceType, ok =>
    [Event.progressMessage (Progress.addingResources resourceType storage.location),
      Event.addResources storage.location resourceType ok]
  | DbCall.addTags storage resourceType, ok => [Event.addTags storage.location resourceType ok]
  | DbCall.synchronizeStorage storage, ok => [Event.synchronizeStorage storage.location ok]

/-- The message the locator logs for a call that failed. -/
def DbCall.failure : DbCall → Message
  | DbCall.addStorage storage _ => Message.couldNotAddStorage storage.location
  | DbCall.addResources _ resourceType => Message.couldNotAddResourceType resourceType
  | DbCall.addTags _ resourceType => Message.couldNotAddTags resourceType
  | DbCall.synchronizeStorage storage => Message.couldNotSynchronize storage.location

/-- A list of calls asked of the cache database in turn, every one of them,
each on the database the call before it left: the database at the end and the
answers in order. -/
def askAll (env : Env) (fs : FileSystem) : List DbCall → Db → Db × List Bool
  | [], db => (db, [])
  | call :: rest, db =>
    ((askAll env fs rest (call.ask env fs db).1).1,
      (call.ask env fs db).2 :: (askAll env fs rest (call.ask env fs db).1).2)

/-- The trace of a list of calls with their answers. -/
def recorded (calls : List DbCall) (answers : List Bool) : List Event :=
  (calls.zip answers).flatMap (fun p => p.1.events p.2)

/-- The messages for the calls, of a list with its answers, that failed. -/
def failures (calls : List DbCall) (answers : List Bool) : List Message :=
  (calls.zip answers).filterMap (fun p => if p.2 = true then none else some p.1.failure)

/-- The calls `initializeDb` is to make for a set of storages: for every storage
its registration and then, for every resource type, its resources and its tags. -/
def initializeDb.calls (env : Env) (storages : List KisResourceStorage) : List DbCall :=
  storages.flatMap (fun storage =>
    DbCall.addStorage storage (if storage.type = StorageType.Folder then false else true) ::
      env.resourceTypes.flatMap (fun resourceType =>
        [DbCall.addResources storage resourceType, DbCall.addTags storage resourceType]))

/-- The calls `synchronizeDb` is to make for a set of storages: one per storage. -/
def synchronizeDb.calls (storages : List KisResourceStorage) : List DbCall :=
  storages.map DbCall.synchronizeStorage

/-- A run from `w` to `w1` that asked the cache database exactly the given calls,
in turn, recorded each with the answer the database gave, logged the message of
each that failed, and changed nothing else. -/
def Asked (env : Env) (calls : List DbCall) (w w1 : World) : Prop :=
  w1.db = (askAll env w.fs calls w.db).1 ∧
    w1.trace = w.trace ++ recorded calls (askAll env w.fs calls w.db).2 ∧
    w1.d.errorMessages = w.d.errorMessages ++ failures calls (askAll env w.fs calls w.db).2 ∧
    w1.fs = w.fs ∧ w1.d.resourceLocation = w.d.resourceLocation ∧
    w1.d.storages = w.d.storages ∧ w1.d.resourceCache = w.d.resourceCache

/-! ## Reading the trace -/

/-- The calls a run appended to the trace, between the world before and after it. -/
def newEvents (before after : World) : List Event :=
  after.trace.drop before.trace.length

/-- A run from `w` to `w1` that made the calls `es` and logged the messages
`ms`, and left the filesystem and the rest of the locator's data alone (the
database may have changed). -/
def Steps (w w1 : World) (es : List Event) (ms : List Message) : Prop :=
  w1.trace = w.trace ++ es ∧ w1.d.errorMessages = w.d.errorMessages ++ ms ∧ w1.fs = w.fs ∧
    w1.d.resourceLocation = w.d.resourceLocation ∧ w1.d.storages = w.d.storages ∧
    w1.d.resourceCache = w.d.resourceCache

/-- The outcome of a recorded call; a call without an outcome counts as good. -/
def Event.ok : Event → Bool
  | Event.mkpath _ ok => ok
  | Event.copy _ _ ok => ok
  | Event.writeFile _ _ ok => ok
  | Event.addStorage _ _ ok => ok
  | Event.addResources _ _ ok => ok
  | Event.addTags _ _ ok => ok
  | Event.synchronizeStorage _ ok => ok
  | Event.dbRemoveResource _ ok => ok
  | _ => true

/-- The same call, recorded as having succeeded: what is left of an event once
its outcome is forgotten. -/
def Event.succeeded : Event → Event
  | Event.mkpath p _ => Event.mkpath p true
  | Event.copy s t _ => Event.copy s t true
  | Event.writeFile p c _ => Event.writeFile p c true
  | Event.addStorage l p _ => Event.addStorage l p true
  | Event.addResources l t _ => Event.addResources l t true
  | Event.addTags l t _ => Event.addTags l t true
  | Event.synchronizeStorage l _ => Event.synchronizeStorage l true
  | Event.dbRemoveResource i _ => Event.dbRemoveResource i true
  | e => e

/-- The event is a call of `QDir::mkpath`. -/
def Event.isMkpath : Event → Bool
  | Event.mkpath _ _ => true
  | _ => false

/-- The event is a call of `KisResourceCacheDb::synchronizeStorage`. -/
def Event.isSynchronizeStorage : Event → Bool
  | Event.synchronizeStorage _ _ => true
  | _ => false

/-- The message `synchronizeDb` logs for a failed call, and nothing for any other event. -/
def Event.synchronizeFailure : Event → Option Message
  | Event.synchronizeStorage location false => some (Message.couldNotSynchronize location)
  | _ => none

/-- Installation ran during a call: the call announced it, which is the first
thing `firstTimeInstallation` does and nothing else does. -/
def installationRan (before after : World) : Prop :=
  Event.progressMessage Progress.runningFirstTime ∈ newEvents before after

instance (before after : World) : Decidable (installationRan before after) :=
  inferInstanceAs (Decidable (Event.progressMessage Progress.runningFirstTime ∈ newEvents before after))

/-- The calls `initializeDb` makes for one storage, all recorded as succeeded. -/
def initializeDb.callsFor (env : Env) (storage : KisResourceStorage) : List Event :=
  Event.addStorage storage.location (if storage.type = StorageType.Folder then false else true) true ::
    env.resourceTypes.flatMap (fun resourceType =>
      [Event.progressMessage (Progress.addingResources resourceType storage.location),
        Event.addResources storage.location resourceType true,
        Event.addTags storage.location resourceType true])

/-! ## Sample inputs -/

/-- An environment in which every collaborator succeeds: application version 4.2.0,
resource root `/r`, two resource types. -/
def sampleEnv : Env where
  resourceDirectory := none
  appDataLocation := "/r"
  versionString := "4.2.0"
  versionFromString := fun s =>
    if s = "4.2.0" then [4, 2, 0] else if s = "4.1.0" then [4, 1, 0] else []
  resourceTypes := ["brushes", "palettes"]
  mkpathOk := fun _ => true
  newDirWritable := fun _ => true
  copyOk := fun _ _ => true
  openWriteOk := fun _ => true
  storageResource := fun _ _ _ name => if name = "p.kpp" then some 7 else none
  prepareOk := fun _ => true
  execOk := fun _ _ => true
  addStorage := fun _ db _ _ => (db, true)
  addResources := fun _ db _ _ => (db, true)
  addTags := fun _ db _ _ => (db, true)
  synchronizeStorage := fun _ db _ => (db, true)
  dbRemoveResource := fun db resourceId =>
    ({ db with resources := db.resources.filter (fun r => decide (r.id ≠ resourceId)) }, true)

/-- A locator that has not been initialised yet. -/
def freshPrivate : Private where
  resourceLocation := ""
  storages := []
  resourceCache := []
  errorMessages := []

/-- An install source `/i` with one brush and one bundle; no resource root yet. -/
def sampleSource : FileSystem :=
  [("/i", Node.dir true), ("/i/brushes", Node.dir true),
    ("/i/brushes/a.gbr", Node.file "A" true true),
    ("/i/x/b.bundle", Node.file "B" true true)]

/-- The world before the first start: no resource root, an empty database. -/
def firstStart : World where
  d := freshPrivate
  fs := sampleSource
  db := { storages := [], resources := [] }
  trace := []

/-- The resource root `/r` after a complete installation at version 4.2.0. -/
def installedFiles : FileSystem :=
  sampleSource ++
    [("/r", Node.dir true), ("/r/brushes", Node.dir true), ("/r/palettes", Node.dir true),
      ("/r/brushes/a.gbr", Node.file "A" true true), ("/r/b.bundle", Node.file "B" true true),
      ("/r/KRITA_RESOURCE_VERSION", Node.file "4.2.0" true true)]

/-- The world of a later start: the root is installed, the database knows the
preset `p.kpp` of the root folder storage, nothing is cached. -/
def laterStart : World where
  d := freshPrivate
  fs := installedFiles ++ [("/r/paintoppresets/p.kpp", Node.file "P" true true)]
  db := { storages := [⟨1, ""⟩], resources := [⟨1, "p.kpp", 1⟩] }
  trace := []

/-- The world of a running locator: initialised on `/r`, nothing looked up yet. -/
def cold : World where
  d := { resourceLocation := "/r"
         storages := [("/r", ⟨"/r", StorageType.Folder⟩),
           ("/r/b.bundle", ⟨"/r/b.bundle", StorageType.Archive⟩)]
         resourceCache := []
         errorMessages := [] }
  fs := installedFiles ++ [("/r/paintoppresets/p.kpp", Node.file "P" true true)]
  db := { storages := [⟨1, ""⟩], resources := [⟨1, "p.kpp", 1⟩] }
  trace := []

/-- The world `cold` after the lookup of `p.kpp` in the root folder storage:
the handle is in the cache and the fetch is on the trace. -/
def warm : World where
  d := { cold.d with resourceCache := [(("/r", "p.kpp"), some 7)] }
  fs := cold.fs
  db := cold.db
  trace := [Event.storageResource "/r" "p.kpp"]

/-- The world of a start after an upgrade: as `laterStart`, but the marker still
holds version 4.1.0. -/
def upgradeStart : World where
  d := freshPrivate
  fs := sampleSource ++
    [("/r", Node.dir true), ("/r/brushes", Node.dir true), ("/r/palettes", Node.dir true),
      ("/r/brushes/a.gbr", Node.file "A" true true), ("/r/b.bundle", Node.file "B" true true),
      ("/r/KRITA_RESOURCE_VERSION", Node.file "4.1.0" true true)]
  db := { storages := [⟨1, ""⟩], resources := [⟨1, "p.kpp", 1⟩] }
  trace := []

/-- The world of a locator set on `/r` whose root has no type directory yet. -/
def bareRoot : World where
  d := { freshPrivate with resourceLocation := "/r" }
  fs := sampleSource ++ [("/r", Node.dir true)]
  db := { storages := [], resources := [] }
  trace := []

/-- The world of a locator set on `/r` whose root is completely installed. -/
def installedRoot : World where
  d := { freshPrivate with resourceLocation := "/r" }
  fs := installedFiles
  db := { storages := [], resources := [] }
  trace := []

/-- As `sampleEnv`, but the system refuses to create any directory. -/
def envNoMkpath : Env :=
  { sampleEnv with mkpathOk := fun _ => false }

/-- As `sampleEnv`, but new directories come out read-only. -/
def envReadOnlyDirs : Env :=
  { sampleEnv with newDirWritable := fun _ => false }

/-- As `sampleEnv`, but the system refuses to create `/r/palettes`. -/
def envNoPalettes : Env :=
  { sampleEnv with mkpathOk := fun p => decide (p ≠ "/r/palettes") }

/-- As `sampleEnv`, but every file copy fails. -/
def envCopyFails : Env :=
  { sampleEnv with copyOk := fun _ _ => false }

/-- As `sampleEnv`, but the lookup query of `removeResource` fails to execute. -/
def envExecFails : Env :=
  { sampleEnv with execOk := fun _ _ => false }

/-- As `sampleEnv`, but the bundle `/r/b.bundle` cannot be synchronised. -/
def envSyncFails : Env :=
  { sampleEnv with
    synchronizeStorage := fun _ db s => (db, decide (s.location ≠ "/r/b.bundle")) }

/-- As `sampleEnv`, but the root folder storage `/r` cannot be synchronised. -/
def envRootSyncFails : Env :=
  { sampleEnv with synchronizeStorage := fun _ db s => (db, decide (s.location ≠ "/r")) }

/-- As `sampleEnv`, but the root folder storage `/r` cannot be registered and the
tags of the brushes cannot be added. -/
def envBulkFails : Env :=
  { sampleEnv with
    addStorage := fun _ db s _ => (db, decide (s.location ≠ "/r"))
    addTags := fun _ db _ t => (db, decide (t ≠ "brushes")) }

/-! ## Facts about the filesystem -/

theorem FileSystem.find_set_same (fs : FileSystem) (path : String) (node : Node) :
    FileSystem.find (FileSystem.set fs path node) path = some node := by
  induction fs with
  | nil => simp [FileSystem.set, FileSystem.find]
  | cons e rest ih =>
    obtain ⟨p, n⟩ := e
    by_cases h : p = path
    · simp [FileSystem.set, FileSystem.find, h]
    · simp [FileSystem.set, FileSystem.find, h, ih]

theorem FileSystem.find_set_other (fs : FileSystem) (path other : String) (node : Node)
    (h : path ≠ other) :
    FileSystem.find (FileSystem.set fs path node) other = FileSystem.find fs other := by
  induction fs with
  | nil => simp [FileSystem.set, FileSystem.find, h]
  | cons e rest ih =>
    obtain ⟨p, n⟩ := e
    by_cases hp : p = path
    · subst hp
      simp [FileSystem.set, FileSystem.find, h]
    · simp [FileSystem.set, FileSystem.find, hp, ih]

/-- The outcome of `mkpath` on a path does not depend on the directories that
other `mkpath` calls have made in between. -/
theorem QDir.mkpath_outcome_stable (env : Env) (fs : FileSystem) (q p : String) :
    (QDir.mkpath env (QDir.mkpath env fs q).1 p).2 = (QDir.mkpath env fs p).2 := by
  unfold QDir.mkpath
  cases hq : FileSystem.find fs (cleanPath q) with
  | some n => cases n <;> simp
  | none =>
    by_cases hok : env.mkpathOk (cleanPath q) = true
    · simp only [hok, if_true]
      by_cases hpq : cleanPath q = cleanPath p
      · rw [← hpq, FileSystem.find_set_same, hq]
        simp [hok]
      · rw [FileSystem.find_set_other _ _ _ _ hpq]
        cases FileSystem.find fs (cleanPath p) with
        | none => by_cases h2 : env.mkpathOk (cleanPath p) = true <;> simp [h2]
        | some n => cases n <;> simp
    · simp [hok]

/-- A directory stays a directory through `mkpath`. -/
theorem QDir.exists_mkpath (env : Env) (fs : FileSystem) (q p : String)
    (h : QDir.exists fs p = true) : QDir.exists (QDir.mkpath env fs q).1 p = true := by
  unfold QDir.mkpath
  cases hq : FileSystem.find fs (cleanPath q) with
  | some n => cases n <;> simpa using h
  | none =>
    by_cases hok : env.mkpathOk (cleanPath q) = true
    · simp only [hok, if_true]
      have hpq : cleanPath q ≠ cleanPath p := by
        intro e
        rw [e] at hq
        simp [QDir.exists, hq] at h
      simpa [QDir.exists, FileSystem.find_set_other _ _ _ _ hpq] using h
    · simpa [hok] using h

/-- After a successful `mkpath` the directory is there. -/
theorem QDir.exists_of_mkpath (env : Env) (fs : FileSystem) (p : String)
    (h : (QDir.mkpath env fs p).2 = true) : QDir.exists (QDir.mkpath env fs p).1 p = true := by
  unfold QDir.mkpath at h ⊢
  cases hq : FileSystem.find fs (cleanPath p) with
  | some n => cases n <;> simp_all [QDir.exists]
  | none =>
    by_cases hok : env.mkpathOk (cleanPath p) = true
    · simp [hok, QDir.exists, FileSystem.find_set_same]
    · simp [hq, hok] at h

/-- The files (as opposed to directories) are the same before and after `mkpath`. -/
theorem QDir.mkpath_files (env : Env) (fs : FileSystem) (q path : String) (content : String)
    (readable writable : Bool) :
    FileSystem.find (QDir.mkpath env fs q).1 path = some (Node.file content readable writable) ↔
      FileSystem.find fs path = some (Node.file content readable writable) := by
  unfold QDir.mkpath
  cases hq : FileSystem.find fs (cleanPath q) with
  | some n => cases n <;> simp
  | none =>
    by_cases hok : env.mkpathOk (cleanPath q) = true
    · simp only [hok, if_true]
      by_cases hpq : cleanPath q = path
      · subst hpq
        simp [FileSystem.find_set_same, hq]
      · rw [FileSystem.find_set_other _ _ _ _ hpq]
    · simp [hok]

/-- `mkpath` fails only where there is no directory yet. -/
theorem QDir.not_exists_of_mkpath_fails (env : Env) (fs : FileSystem) (p : String)
    (h : (QDir.mkpath env fs p).2 = false) : QDir.exists fs p = false := by
  unfold QDir.mkpath at h
  unfold QDir.exists
  cases hq : FileSystem.find fs (cleanPath p) with
  | none => rfl
  | some n => cases n <;> simp_all

/-! ## Facts about the trace -/

/-- The new events of a run whose trace is known. -/
theorem newEvents_of_trace (w w1 : World) (es : List Event) (h : w1.trace = w.trace ++ es) :
    newEvents w w1 = es := by
  simp [newEvents, h]

/-! ## The runtime cache -/

/-- After `h[key] = v` the key is there. -/
theorem QHash.contains_insert {κ υ : Type} [DecidableEq κ] (h : List (κ × υ)) (key : κ) (v : υ) :
    QHash.contains (QHash.insert h key v) key = true := by
  simp [QHash.insert, QHash.contains]

/-- After `h[key] = v` the key holds `v`. -/
theorem QHash.value_insert {κ υ : Type} [DecidableEq κ] (h : List (κ × Option υ)) (key : κ)
    (v : Option υ) : QHash.value (QHash.insert h key v) key = v := by
  simp [QHash.insert, QHash.value]

/-- The normalised location depends on the world through the resource root only. -/
theorem normalizedStorageLocation_congr (w w1 : World) (s : String)
    (h : w1.d.resourceLocation = w.d.resourceLocation) :
    normalizedStorageLocation w1 s = normalizedStorageLocation w s := by
  simp [normalizedStorageLocation, resourceLocationBase, h]

/-- Claim C1 (cache identity).  Whenever `resource` answers a handle (a non-null
pointer), the same call made again right away finds the key in the runtime cache,
answers that same handle, and leaves the world exactly as it was: the trace is
part of the world, so no storage is asked a second time.  (A call that answered
was a cache hit or found its storage registered, so registration needs no
separate mention.) -/
theorem resource_cache_identity (env : Env) (w w1 : World)
    (storageLocation resourceLocation : String) (handle : Nat)
    (hfirst : resource env storageLocation resourceLocation w = some (some handle, w1)) :
    resourceCached w1 storageLocation resourceLocation = true ∧
      resource env storageLocation resourceLocation w1 = some (some handle, w1) := by
  unfold resource at hfirst
  by_cases hc : QHash.contains w.d.resourceCache
      (normalizedStorageLocation w storageLocation, resourceLocation) = true
  · simp only [hc, if_true, Option.some.injEq, Prod.mk.injEq] at hfirst
    obtain ⟨hv, hw⟩ := hfirst
    subst hw
    refine ⟨by simpa [resourceCached] using hc, ?_⟩
    simp [resource, hc, hv]
  · simp only [hc] at hfirst
    cases hs : QMap.find w.d.storages (normalizedStorageLocation w storageLocation) with
    | none => simp [hs] at hfirst
    | some storage =>
      simp only [hs] at hfirst
      cases hr : env.storageResource w.trace w.fs storage resourceLocation with
      | none => simp [hr] at hfirst
      | some r =>
        simp only [hr, Bool.false_eq_true, if_false, Option.some.injEq, Prod.mk.injEq] at hfirst
        obtain ⟨hh, hw⟩ := hfirst
        subst hw
        subst hh
        have hn : normalizedStorageLocation
            ({ w.emit (Event.storageResource storage.location resourceLocation) with
              d := { (w.emit (Event.storageResource storage.location resourceLocation)).d with
                resourceCache := QHash.insert
                  (w.emit (Event.storageResource storage.location resourceLocation)).d.resourceCache
                  (normalizedStorageLocation w storageLocation, resourceLocation) (some r) } })
            storageLocation = normalizedStorageLocation w storageLocation := rfl
        refine ⟨?_, ?_⟩
        · simp only [resourceCached, hn, QHash.contains_insert]
        · simp only [resource, hn, QHash.contains_insert, QHash.value_insert, if_true]

/-- Witness for C1: the first lookup of `p.kpp` in the root folder storage fetches
it and answers handle 7; the second answers handle 7 from the cache. -/
theorem resource_cache_identity_witness :
    resource sampleEnv "" "p.kpp" cold = some (some 7, warm) ∧
      resourceCached warm "" "p.kpp" = true ∧
      resource sampleEnv "" "p.kpp" warm = some (some 7, warm) :=
  ⟨by decide, resource_cache_identity sampleEnv cold warm "" "p.kpp" 7 (by decide)⟩

/-! ## Removal -/

/-- After `QHash::remove` the key is gone. -/
theorem QHash.contains_remove {κ υ : Type} [DecidableEq κ] (h : List (κ × υ)) (key : κ) :
    QHash.contains (QHash.remove h key).1 key = false := by
  unfold QHash.remove
  induction h with
  | nil => simp [QHash.contains]
  | cons e rest ih =>
    obtain ⟨k, v⟩ := e
    by_cases hk : k = key
    · simpa [List.filter, hk] using ih
    · simpa [List.filter, hk, QHash.contains] using ih

/-- When the lookup query cannot be prepared, `removeResource` gives up before it
touches the cache or the database. -/
theorem removeResource_prepare_failure (env : Env) (resourceId : Int) (w : World)
    (h : env.prepareOk w.db = false) :
    (removeResource env resourceId w).1 = false ∧ (removeResource env resourceId w).2.d = w.d ∧
      (removeResource env resourceId w).2.db = w.db ∧
      (∀ ok, Event.dbRemoveResource resourceId ok ∉ newEvents w (removeResource env resourceId w).2) := by
  have hr : removeResource env resourceId w = (false,
      w.emit (Event.qWarning "KisResourceLocator::removeResource: could not prepare query.")) := by
    simp [removeResource, h]
  rw [hr]
  refine ⟨rfl, rfl, rfl, ?_⟩
  intro ok
  rw [newEvents_of_trace w _ [Event.qWarning
    "KisResourceLocator::removeResource: could not prepare query."] rfl]
  simp

/-- When the lookup query runs and finds the record, `removeResource` evicts the
record's key from the runtime cache, whatever the database then answers. -/
theorem removeResource_evicts (env : Env) (resourceId : Int) (w : World)
    (storageLocation resourceLocation : String)
    (hprepare : env.prepareOk w.db = true) (hexec : env.execOk w.db resourceId = true)
    (hrow : (lookupQuery w.db resourceId).head? = some (storageLocation, resourceLocation)) :
    resourceCached (removeResource env resourceId w).2 storageLocation resourceLocation = false := by
  simp only [removeResource, hprepare, hexec, hrow, resourceCached, Bool.not_true,
    Bool.false_eq_true, if_false, if_true, Option.map_some', Option.getD_some]
  exact QHash.contains_remove w.d.resourceCache
    (normalizedStorageLocation w storageLocation, resourceLocation)

/-- Claim C2 (failure atomicity of `removeResource`), at the failing input: the
lookup query is prepared but fails to execute.  The source only warns and goes
on: `KisResourceCacheDb::removeResource` is invoked, deletes the record and
`removeResource` answers true. -/
theorem removeResource_exec_failure_mutates :
    envExecFails.prepareOk warm.db = true ∧ envExecFails.execOk warm.db 1 = false ∧
      (removeResource envExecFails 1 warm).1 = true ∧
      Event.dbRemoveResource 1 true ∈ (removeResource envExecFails 1 warm).2.trace ∧
      (removeResource envExecFails 1 warm).2.db.resources = [] ∧
      warm.db.resources = [⟨1, "p.kpp", 1⟩] := by
  decide

/-- Claim C3 (removal consistency), at the failing input: resource 1 is `p.kpp` of
the root folder storage and its handle is cached; the lookup query fails to
execute.  `removeResource` answers true, yet `resourceCached` still holds for the
record's key and `resource` still answers the old handle. -/
theorem removeResource_exec_failure_keeps_handle :
    lookupQuery warm.db 1 = [("", "p.kpp")] ∧
      (removeResource envExecFails 1 warm).1 = true ∧
      resourceCached (removeResource envExecFails 1 warm).2 "" "p.kpp" = true ∧
      resource envExecFails "" "p.kpp" (removeResource envExecFails 1 warm).2 =
        some (some 7, (removeResource envExecFails 1 warm).2) := by
  decide

/-! ## Asking the cache database -/

/-- One answer per call. -/
theorem askAll_length (env : Env) (fs : FileSystem) (calls : List DbCall) (db : Db) :
    (askAll env fs calls db).2.length = calls.length := by
  induction calls generalizing db with
  | nil => rfl
  | cons c rest ih => simp [askAll, ih]

/-- Asking two lists of calls one after the other. -/
theorem askAll_append (env : Env) (fs : FileSystem) (a b : List DbCall) (db : Db) :
    askAll env fs (a ++ b) db =
      ((askAll env fs b (askAll env fs a db).1).1,
        (askAll env fs a db).2 ++ (askAll env fs b (askAll env fs a db).1).2) := by
  induction a generalizing db with
  | nil => rfl
  | cons c rest ih => simp [askAll, ih]

/-- The trace of two lists of calls, each with as many answers as calls. -/
theorem recorded_append (a b : List DbCall) (x y : List Bool) (h : x.length = a.length) :
    recorded (a ++ b) (x ++ y) = recorded a x ++ recorded b y := by
  unfold recorded
  rw [List.zip_append h.symm, List.flatMap_append]

/-- The failures of two lists of calls, each with as many answers as calls. -/
theorem failures_append (a b : List DbCall) (x y : List Bool) (h : x.length = a.length) :
    failures (a ++ b) (x ++ y) = failures a x ++ failures b y := by
  unfold failures
  rw [List.zip_append h.symm, List.filterMap_append]

/-- No call asked. -/
theorem Asked.nothing (env : Env) (w : World) : Asked env [] w w := by
  simp [Asked, askAll, recorded, failures]

/-- Calls asked one run after the other. -/
theorem Asked.andThen {env : Env} {a b : List DbCall} {w w1 w2 : World}
    (h : Asked env a w w1) (h2 : Asked env b w1 w2) : Asked env (a ++ b) w w2 := by
  obtain ⟨a1, a2, a3, a4, a5, a6, a7⟩ := h
  obtain ⟨b1, b2, b3, b4, b5, b6, b7⟩ := h2
  have hl := askAll_length env w.fs a w.db
  rw [a4, a1] at b1 b2 b3
  refine ⟨?_, ?_, ?_, b4.trans a4, b5.trans a5, b6.trans a6, b7.trans a7⟩
  · rw [b1, askAll_append]
  · rw [b2, a2, askAll_append, recorded_append _ _ _ _ hl, List.append_assoc]
  · rw [b3, a3, askAll_append, failures_append _ _ _ _ hl, List.append_assoc]

/-- The source's way of making one call: ask, record, log the failure. -/
theorem Asked.oneCall (env : Env) (c : DbCall) (w : World) (pre : List Event) (e : Bool → Event)
    (hev : ∀ ok, c.events ok = pre ++ [e ok]) (w0 : World)
    (hw0 : w0 = { w with trace := w.trace ++ pre }) :
    Asked env [c] w
      (if (!(c.ask env w0.fs w0.db).2) = true then
        (({ w0 with db := (c.ask env w0.fs w0.db).1 }).emit (e (c.ask env w0.fs w0.db).2)).error
          c.failure
      else ({ w0 with db := (c.ask env w0.fs w0.db).1 }).emit (e (c.ask env w0.fs w0.db).2)) := by
  subst hw0
  cases hok : (c.ask env w.fs w.db).2 <;>
    simp [Asked, askAll, recorded, failures, hok, hev, World.emit, World.error]

/-- The loop of `synchronizeDb` asks the database to synchronise every storage. -/
theorem synchronizeDb.loop_asks (env : Env) (l : List KisResourceStorage) (w : World) :
    Asked env (synchronizeDb.calls l) w (synchronizeDb.loop env l w) := by
  induction l generalizing w with
  | nil => exact Asked.nothing env w
  | cons s rest ih =>
    have h1 := Asked.oneCall env (DbCall.synchronizeStorage s) w []
      (fun ok => Event.synchronizeStorage s.location ok) (fun _ => rfl) w (by simp)
    have h2 := h1.andThen (ih _)
    simpa [synchronizeDb.calls, synchronizeDb.loop, DbCall.ask, DbCall.failure] using h2

/-- The inner loop of `initializeDb` asks for the resources and the tags of every type. -/
theorem initializeDb.addTypes_asked (env : Env) (storage : KisResourceStorage) (l : List String)
    (w : World) :
    Asked env (l.flatMap (fun resourceType =>
        [DbCall.addResources storage resourceType, DbCall.addTags storage resourceType])) w
      (initializeDb.addTypes env storage l w) := by
  induction l generalizing w with
  | nil => exact Asked.nothing env w
  | cons t rest ih =>
    have h1 := Asked.oneCall env (DbCall.addResources storage t) w
      [Event.progressMessage (Progress.addingResources t storage.location)]
      (fun ok => Event.addResources storage.location t ok) (fun _ => rfl)
      (w.emit (Event.progressMessage (Progress.addingResources t storage.location))) rfl
    have h2 := fun v => Asked.oneCall env (DbCall.addTags storage t) v []
      (fun ok => Event.addTags storage.location t ok) (fun _ => rfl) v (by simp)
    have h3 := (h1.andThen (h2 _)).andThen (ih _)
    simpa [initializeDb.addTypes, DbCall.ask, DbCall.failure] using h3

/-- The outer loop of `initializeDb` asks for the registration of every storage
and, for each, for the resources and the tags of every type. -/
theorem initializeDb.loop_asks_all (env : Env) (l : List KisResourceStorage) (w : World) :
    Asked env (initializeDb.calls env l) w (initializeDb.loop env l w) := by
  induction l generalizing w with
  | nil => exact Asked.nothing env w
  | cons s rest ih =>
    have h1 := Asked.oneCall env
      (DbCall.addStorage s (if s.type = StorageType.Folder then false else true)) w []
      (fun ok => Event.addStorage s.location
        (if s.type = StorageType.Folder then false else true) ok) (fun _ => rfl) w (by simp)
    have h2 := initializeDb.addTypes_asked env s env.resourceTypes
    have h3 := (h1.andThen (h2 _)).andThen (ih _)
    simpa [initializeDb.calls, initializeDb.loop, DbCall.ask, DbCall.failure] using h3

/-- No failure is logged exactly when every answer is good. -/
theorem failures_eq_nil (calls : List DbCall) (answers : List Bool)
    (h : answers.length = calls.length) :
    failures calls answers = [] ↔ ∀ a ∈ answers, a = true := by
  induction calls generalizing answers with
  | nil =>
    cases answers with
    | nil => simp [failures]
    | cons a rest => simp at h
  | cons c rest ih =>
    cases answers with
    | nil => simp at h
    | cons a as =>
      have hl : as.length = rest.length := by simpa using h
      have ih2 := ih as hl
      unfold failures at ih2 ⊢
      cases a with
      | true => simpa [List.zip_cons_cons, List.filterMap_cons] using ih2
      | false => simp [List.zip_cons_cons, List.filterMap_cons]

/-- The method `synchronizeDb` in terms of the calls it asks of the cache database. -/
theorem synchronizeDb_asked (env : Env) (w : World) :
    (synchronizeDb env w).2.db =
        (askAll env w.fs (synchronizeDb.calls (storages (findStorages w))) w.db).1 ∧
      newEvents w (synchronizeDb env w).2 =
        recorded (synchronizeDb.calls (storages (findStorages w)))
          (askAll env w.fs (synchronizeDb.calls (storages (findStorages w))) w.db).2 ∧
      (synchronizeDb env w).2.d.errorMessages =
        failures (synchronizeDb.calls (storages (findStorages w)))
          (askAll env w.fs (synchronizeDb.calls (storages (findStorages w))) w.db).2 ∧
      ((synchronizeDb env w).1 = true ↔
        ∀ a ∈ (askAll env w.fs (synchronizeDb.calls (storages (findStorages w))) w.db).2,
          a = true) := by
  obtain ⟨h1, h2, h3, _⟩ := synchronizeDb.loop_asks env
    (storages (findStorages w.clearErrors)) (findStorages w.clearErrors)
  have hm : (synchronizeDb env w).2.d.errorMessages =
      failures (synchronizeDb.calls (storages (findStorages w)))
        (askAll env w.fs (synchronizeDb.calls (storages (findStorages w))) w.db).2 := by
    show (synchronizeDb.loop env _ _).d.errorMessages = _
    rw [h3]
    rfl
  refine ⟨h1, newEvents_of_trace w _ _ h2, hm, ?_⟩
  show ((synchronizeDb env w).2.d.errorMessages.isEmpty = true ↔ _)
  rw [hm, List.isEmpty_iff]
  exact failures_eq_nil _ _ (askAll_length _ _ _ _)

/-- The method `initializeDb` in terms of the calls it asks of the cache database. -/
theorem initializeDb_asked (env : Env) (w : World) :
    (initializeDb env w).2.db =
        (askAll env w.fs (initializeDb.calls env (storages (findStorages w))) w.db).1 ∧
      newEvents w (initializeDb env w).2 =
        Event.progressMessage Progress.initializingResources ::
          recorded (initializeDb.calls env (storages (findStorages w)))
            (askAll env w.fs (initializeDb.calls env (storages (findStorages w))) w.db).2 ∧
      (initializeDb env w).2.d.errorMessages =
        failures (initializeDb.calls env (storages (findStorages w)))
          (askAll env w.fs (initializeDb.calls env (storages (findStorages w))) w.db).2 ∧
      ((initializeDb env w).1 = true ↔
        ∀ a ∈ (askAll env w.fs (initializeDb.calls env (storages (findStorages w))) w.db).2,
          a = true) := by
  obtain ⟨h1, h2, h3, _⟩ := initializeDb.loop_asks_all env
    (storages (findStorages (w.emit (Event.progressMessage Progress.initializingResources)).clearErrors))
    (findStorages (w.emit (Event.progressMessage Progress.initializingResources)).clearErrors)
  have hm : (initializeDb env w).2.d.errorMessages =
      failures (initializeDb.calls env (storages (findStorages w)))
        (askAll env w.fs (initializeDb.calls env (storages (findStorages w))) w.db).2 := by
    show (initializeDb.loop env _ _).d.errorMessages = _
    rw [h3]
    rfl
  refine ⟨h1, ?_, hm, ?_⟩
  · apply newEvents_of_trace
    show (initializeDb.loop env _ _).trace = _
    rw [h2]
    simp [findStorages, World.clearErrors, World.emit]
    rfl
  · show ((initializeDb env w).2.d.errorMessages.isEmpty = true ↔ _)
    rw [hm, List.isEmpty_iff]
    exact failures_eq_nil _ _ (askAll_length _ _ _ _)

/-! ## Synchronisation -/

/-- What the loop of `synchronizeDb` does: one call per storage, whatever the
earlier calls answered, and one message per failed call; nothing else changes. -/
theorem synchronizeDb.loop_calls (env : Env) (l : List KisResourceStorage) (w : World) :
    ∃ es, (synchronizeDb.loop env l w).trace = w.trace ++ es ∧
      es.map Event.succeeded = l.map (fun s => Event.synchronizeStorage s.location true) ∧
      (synchronizeDb.loop env l w).d.errorMessages =
        w.d.errorMessages ++ es.filterMap Event.synchronizeFailure ∧
      (∀ e ∈ es, e.isSynchronizeStorage = true) ∧
      (synchronizeDb.loop env l w).fs = w.fs ∧
      (synchronizeDb.loop env l w).d.resourceLocation = w.d.resourceLocation ∧
      (synchronizeDb.loop env l w).d.storages = w.d.storages ∧
      (synchronizeDb.loop env l w).d.resourceCache = w.d.resourceCache := by
  induction l generalizing w with
  | nil => exact ⟨[], by simp [synchronizeDb.loop]⟩
  | cons s rest ih =>
    cases hok : (env.synchronizeStorage w.fs w.db s).2 with
    | true =>
      obtain ⟨es, h1, h2, h3, h4, h5, h6, h7, h8⟩ :=
        ih (({ w with db := (env.synchronizeStorage w.fs w.db s).1 }).emit
          (Event.synchronizeStorage s.location true))
      have hl : synchronizeDb.loop env (s :: rest) w =
          synchronizeDb.loop env rest
            (({ w with db := (env.synchronizeStorage w.fs w.db s).1 }).emit
              (Event.synchronizeStorage s.location true)) := by
        simp [synchronizeDb.loop, hok]
      rw [hl]
      refine ⟨Event.synchronizeStorage s.location true :: es, ?_, ?_, ?_, ?_, h5, h6, h7, h8⟩
      · rw [h1]; simp [World.emit]
      · simp [h2, Event.succeeded]
      · rw [h3]; simp [World.emit, Event.synchronizeFailure]
      · intro e he
        rcases List.mem_cons.mp he with he | he
        · subst he; rfl
        · exact h4 e he
    | false =>
      obtain ⟨es, h1, h2, h3, h4, h5, h6, h7, h8⟩ :=
        ih ((({ w with db := (env.synchronizeStorage w.fs w.db s).1 }).emit
          (Event.synchronizeStorage s.location false)).error
            (Message.couldNotSynchronize s.location))
      have hl : synchronizeDb.loop env (s :: rest) w =
          synchronizeDb.loop env rest
            ((({ w with db := (env.synchronizeStorage w.fs w.db s).1 }).emit
              (Event.synchronizeStorage s.location false)).error
                (Message.couldNotSynchronize s.location)) := by
        simp [synchronizeDb.loop, hok]
      rw [hl]
      refine ⟨Event.synchronizeStorage s.location false :: es, ?_, ?_, ?_, ?_, h5, h6, h7, h8⟩
      · rw [h1]; simp [World.emit, World.error]
      · simp [h2, Event.succeeded]
      · rw [h3]; simp [World.emit, World.error, Event.synchronizeFailure]
      · intro e he
        rcases List.mem_cons.mp he with he | he
        · subst he; rfl
        · exact h4 e he

/-- A synchronisation call failed exactly when it left a message. -/
theorem Event.synchronizeFailure_eq_none (e : Event) (h : e.isSynchronizeStorage = true) :
    e.synchronizeFailure = none ↔ e.ok = true := by
  cases e <;> simp [Event.isSynchronizeStorage] at h
  case synchronizeStorage l ok => cases ok <;> simp [Event.synchronizeFailure, Event.ok]

/-- The method `synchronizeDb` as a whole. -/
theorem synchronizeDb_spec (env : Env) (w : World) :
    (newEvents w (synchronizeDb env w).2).map Event.succeeded =
        (storages (findStorages w)).map (fun s => Event.synchronizeStorage s.location true) ∧
      (synchronizeDb env w).2.d.errorMessages =
        (newEvents w (synchronizeDb env w).2).filterMap Event.synchronizeFailure ∧
      ((synchronizeDb env w).1 = true ↔ ∀ e ∈ newEvents w (synchronizeDb env w).2, e.ok = true) ∧
      (∀ e ∈ newEvents w (synchronizeDb env w).2, e.isSynchronizeStorage = true) ∧
      (synchronizeDb env w).2.fs = w.fs := by
  obtain ⟨es, h1, h2, h3, h4, h5, _, _, _⟩ :=
    synchronizeDb.loop_calls env (storages (findStorages w.clearErrors)) (findStorages w.clearErrors)
  have hn : newEvents w (synchronizeDb env w).2 = es := newEvents_of_trace w _ es h1
  have hm : (synchronizeDb env w).2.d.errorMessages = es.filterMap Event.synchronizeFailure := by
    show (synchronizeDb.loop env _ _).d.errorMessages = _
    rw [h3]
    rfl
  rw [hn]
  refine ⟨h2, hm, ?_, h4, h5⟩
  show ((synchronizeDb env w).2.d.errorMessages.isEmpty = true ↔ _)
  rw [hm, List.isEmpty_iff, List.filterMap_eq_nil_iff]
  constructor
  · intro h e he
    exact (Event.synchronizeFailure_eq_none e (h4 e he)).mp (h e he)
  · intro h e he
    exact (Event.synchronizeFailure_eq_none e (h4 e he)).mpr (h e he)

/-- On an already initialised root `initialize` is the synchronisation. -/
theorem initializeLocator_of_alreadyInitialized (env : Env) (inst : String) (w : World)
    (h : alreadyInitialized env w.fs = true) :
    initializeLocator env inst w =
      (if (synchronizeDb env (w.setResourceLocation (configuredResourceLocation env))).1 = true
        then LocatorError.Ok else LocatorError.CannotSynchronizeDb,
        (synchronizeDb env (w.setResourceLocation (configuredResourceLocation env))).2) := by
  simp only [alreadyInitialized, Bool.and_eq_true, decide_eq_true_eq] at h
  obtain ⟨⟨h1, h2⟩, h3⟩ := h
  have e1 : QFileInfo.exists (w.setResourceLocation (configuredResourceLocation env)).fs
      (w.setResourceLocation (configuredResourceLocation env)).d.resourceLocation = true := h1
  have e2 : QFileInfo.isWritable (w.setResourceLocation (configuredResourceLocation env)).fs
      (w.setResourceLocation (configuredResourceLocation env)).d.resourceLocation = true := h2
  have e3 : initializeLocator.markerStatus env
      (w.setResourceLocation (configuredResourceLocation env)).fs
      (w.setResourceLocation (configuredResourceLocation env)).d.resourceLocation =
      InitalizationStatus.Initialized := h3
  simp only [initializeLocator, e1, initializeLocator.checked, e2, e3, initializeLocator.run]
  cases (synchronizeDb env (w.setResourceLocation (configuredResourceLocation env))).1 <;> simp

/-- Claim C10 (synchronisation result).  `synchronizeDb` asks the cache database
to synchronise every storage of the freshly found set, in order and each on the
database the call before it left, whatever the earlier calls answered: the
database at the end is the one these calls leave, the trace is these calls with
the answers `KisResourceCacheDb::synchronizeStorage` gave, the error log is one
message per call that answered false and nothing else, and the result is true
exactly when every call answered true.  On an already initialised root
`initialize` is this synchronisation: it ends in the same world, answers `Ok`
exactly when every call answered true and `CannotSynchronizeDb` otherwise, and
its error log is one message per failed storage. -/
theorem synchronizeDb_result (env : Env) (installationResourcesLocation : String) (w : World) :
    ((newEvents w (synchronizeDb env w).2).map Event.succeeded =
        (storages (findStorages w)).map (fun s => Event.synchronizeStorage s.location true) ∧
      ((synchronizeDb env w).1 = true ↔ ∀ e ∈ newEvents w (synchronizeDb env w).2, e.ok = true) ∧
      (synchronizeDb env w).2.d.errorMessages =
        (newEvents w (synchronizeDb env w).2).filterMap Event.synchronizeFailure) ∧
    ((synchronizeDb env w).2.db =
        (askAll env w.fs (synchronizeDb.calls (storages (findStorages w))) w.db).1 ∧
      newEvents w (synchronizeDb env w).2 =
        recorded (synchronizeDb.calls (storages (findStorages w)))
          (askAll env w.fs (synchronizeDb.calls (storages (findStorages w))) w.db).2 ∧
      (synchronizeDb env w).2.d.errorMessages =
        failures (synchronizeDb.calls (storages (findStorages w)))
          (askAll env w.fs (synchronizeDb.calls (storages (findStorages w))) w.db).2 ∧
      ((synchronizeDb env w).1 = true ↔
        ∀ a ∈ (askAll env w.fs (synchronizeDb.calls (storages (findStorages w))) w.db).2,
          a = true)) ∧
    (alreadyInitialized env w.fs = true →
      (initializeLocator env installationResourcesLocation w).2 =
        (synchronizeDb env (w.setResourceLocation (configuredResourceLocation env))).2 ∧
      ((synchronizeDb env (w.setResourceLocation (configuredResourceLocation env))).1 = true →
        (initializeLocator env installationResourcesLocation w).1 = LocatorError.Ok) ∧
      ((synchronizeDb env (w.setResourceLocation (configuredResourceLocation env))).1 = false →
        (initializeLocator env installationResourcesLocation w).1 =
          LocatorError.CannotSynchronizeDb) ∧
      (initializeLocator env installationResourcesLocation w).2.d.errorMessages =
        (newEvents w (initializeLocator env installationResourcesLocation w).2).filterMap
          Event.synchronizeFailure ∧
      ((initializeLocator env installationResourcesLocation w).1 = LocatorError.Ok ↔
        ∀ a ∈ (askAll env w.fs
            (synchronizeDb.calls (storages
              (findStorages (w.setResourceLocation (configuredResourceLocation env)))))
            w.db).2, a = true) ∧
      ((initializeLocator env installationResourcesLocation w).1 =
          LocatorError.CannotSynchronizeDb ↔
        ∃ a ∈ (askAll env w.fs
            (synchronizeDb.calls (storages
              (findStorages (w.setResourceLocation (configuredResourceLocation env)))))
            w.db).2, a = false) ∧
      (initializeLocator env installationResourcesLocation w).2.db =
        (askAll env w.fs
          (synchronizeDb.calls (storages
            (findStorages (w.setResourceLocation (configuredResourceLocation env)))))
          w.db).1 ∧
      (initializeLocator env installationResourcesLocation w).2.d.errorMessages =
        failures
          (synchronizeDb.calls (storages
            (findStorages (w.setResourceLocation (configuredResourceLocation env)))))
          (askAll env w.fs
            (synchronizeDb.calls (storages
              (findStorages (w.setResourceLocation (configuredResourceLocation env)))))
            w.db).2) := by
  obtain ⟨h1, h2, h3, _, _⟩ := synchronizeDb_spec env w
  refine ⟨⟨h1, h3, h2⟩, synchronizeDb_asked env w, ?_⟩
  intro h
  rw [initializeLocator_of_alreadyInitialized env installationResourcesLocation w h]
  obtain ⟨a1, _, a3, a4b⟩ :=
    synchronizeDb_asked env (w.setResourceLocation (configuredResourceLocation env))
  have a4 : (synchronizeDb env (w.setResourceLocation (configuredResourceLocation env))).1 =
      true ↔ ∀ a ∈ (askAll env w.fs
        (synchronizeDb.calls (storages
          (findStorages (w.setResourceLocation (configuredResourceLocation env)))))
        w.db).2, a = true := a4b
  refine ⟨rfl, ?_, ?_, ?_, ?_, ?_, a1, a3⟩
  · intro hs
    simp [hs]
  · intro hs
    simp [hs]
  · exact (synchronizeDb_spec env (w.setResourceLocation (configuredResourceLocation env))).2.1
  · rw [← a4]
    cases (synchronizeDb env (w.setResourceLocation (configuredResourceLocation env))).1 <;>
      simp
  · have hne : (¬ ∀ a ∈ (askAll env w.fs
          (synchronizeDb.calls (storages
            (findStorages (w.setResourceLocation (configuredResourceLocation env)))))
          w.db).2, a = true) ↔
        ∃ a ∈ (askAll env w.fs
          (synchronizeDb.calls (storages
            (findStorages (w.setResourceLocation (configuredResourceLocation env)))))
          w.db).2, a = false := by
      simp
    rw [← hne, ← a4]
    cases (synchronizeDb env (w.setResourceLocation (configuredResourceLocation env))).1 <;>
      simp

/-- Witness for C10: the root is initialised; when the bundle cannot be
synchronised `initialize` answers `CannotSynchronizeDb` with the one message,
also when it is the root folder storage that cannot be, with the bundle
synchronised all the same; when every storage can it answers `Ok`. -/
theorem synchronizeDb_result_witness :
    alreadyInitialized envSyncFails laterStart.fs = true ∧
      (initializeLocator envSyncFails "/i" laterStart).1 = LocatorError.CannotSynchronizeDb ∧
      (initializeLocator envSyncFails "/i" laterStart).2.d.errorMessages =
        [Message.couldNotSynchronize "/r/b.bundle"] ∧
      (initializeLocator sampleEnv "/i" laterStart).1 = LocatorError.Ok ∧
      (initializeLocator envRootSyncFails "/i" laterStart).1 =
        LocatorError.CannotSynchronizeDb ∧
      (initializeLocator envRootSyncFails "/i" laterStart).2.d.errorMessages =
        [Message.couldNotSynchronize "/r"] ∧
      newEvents laterStart (initializeLocator envRootSyncFails "/i" laterStart).2 =
        [Event.synchronizeStorage "/r" false, Event.synchronizeStorage "/r/b.bundle" true] :=
  ⟨by decide,
    ((synchronizeDb_result envSyncFails "/i" laterStart).2.2 (by decide)).2.2.1 (by decide),
    by decide,
    ((synchronizeDb_result sampleEnv "/i" laterStart).2.2 (by decide)).2.1 (by decide),
    ((synchronizeDb_result envRootSyncFails "/i" laterStart).2.2 (by decide)).2.2.2.2.2.1.mpr
      ⟨false, by decide, rfl⟩,
    by decide, by decide⟩

/-! ## Bulk load of the cache database -/

theorem Steps.refl (w : World) : Steps w w [] [] := by
  simp [Steps]

theorem Steps.trans {w w1 w2 : World} {es es2 : List Event} {ms ms2 : List Message}
    (h : Steps w w1 es ms) (h2 : Steps w1 w2 es2 ms2) : Steps w w2 (es ++ es2) (ms ++ ms2) := by
  obtain ⟨a1, a2, a3, a4, a5, a6⟩ := h
  obtain ⟨b1, b2, b3, b4, b5, b6⟩ := h2
  refine ⟨?_, ?_, b3.trans a3, b4.trans a4, b5.trans a5, b6.trans a6⟩
  · rw [b1, a1, List.append_assoc]
  · rw [b2, a2, List.append_assoc]

/-- A call into the cache database: the database changes, the call is recorded. -/
theorem Steps.call (w : World) (db : Db) (e : Event) :
    Steps w (({ w with db := db }).emit e) [e] [] := by
  simp [Steps, World.emit]

/-- A progress message is recorded. -/
theorem Steps.emit (w : World) (e : Event) : Steps w (w.emit e) [e] [] := by
  simp [Steps, World.emit]

/-- A message is logged when the call before it failed. -/
theorem Steps.errorUnless (w : World) (ok : Bool) (m : Message) :
    Steps w (if (!ok) = true then w.error m else w) [] (if ok = true then [] else [m]) := by
  cases ok <;> simp [Steps, World.error]

theorem Event.ok_addStorage (l : String) (p ok : Bool) : (Event.addStorage l p ok).ok = ok := rfl

theorem Event.ok_addResources (l t : String) (ok : Bool) : (Event.addResources l t ok).ok = ok :=
  rfl

theorem Event.ok_addTags (l t : String) (ok : Bool) : (Event.addTags l t ok).ok = ok := rfl

theorem Event.ok_progressMessage (m : Progress) : (Event.progressMessage m).ok = true := rfl

/-- What the inner loop of `initializeDb` does for one storage: for every type it
asks for the resources and for the tags, whatever the earlier calls answered,
and it logs nothing exactly when every call succeeded. -/
theorem initializeDb.addTypes_spec (env : Env) (storage : KisResourceStorage) (l : List String)
    (w : World) :
    ∃ es ms, Steps w (initializeDb.addTypes env storage l w) es ms ∧
      es.map Event.succeeded = l.flatMap (fun resourceType =>
        [Event.progressMessage (Progress.addingResources resourceType storage.location),
          Event.addResources storage.location resourceType true,
          Event.addTags storage.location resourceType true]) ∧
      (ms = [] ↔ ∀ e ∈ es, e.ok = true) := by
  induction l generalizing w with
  | nil => exact ⟨[], [], Steps.refl w, by simp [initializeDb.addTypes]⟩
  | cons t rest ih =>
    simp only [initializeDb.addTypes]
    generalize hw0 : w.emit (Event.progressMessage (Progress.addingResources t storage.location))
      = w0
    have s0 : Steps w w0 _ _ := hw0 ▸ Steps.emit w _
    generalize hr : env.addResources w0.fs w0.db storage t = r
    generalize hw1 : ({ w0 with db := r.1 }).emit (Event.addResources storage.location t r.2) = w1
    have s1 : Steps w0 w1 _ _ := hw1 ▸ Steps.call w0 r.1 _
    generalize hw2 : (if (!r.2) = true then w1.error (Message.couldNotAddResourceType t) else w1)
      = w2
    have s2 : Steps w1 w2 _ _ := hw2 ▸ Steps.errorUnless w1 r.2 _
    generalize ht : env.addTags w2.fs w2.db storage t = g
    generalize hw3 : ({ w2 with db := g.1 }).emit (Event.addTags storage.location t g.2) = w3
    have s3 : Steps w2 w3 _ _ := hw3 ▸ Steps.call w2 g.1 _
    generalize hw4 : (if (!g.2) = true then w3.error (Message.couldNotAddTags t) else w3) = w4
    have s4 : Steps w3 w4 _ _ := hw4 ▸ Steps.errorUnless w3 g.2 _
    obtain ⟨es, ms, hs, hcalls, hok⟩ := ih w4
    refine ⟨_, _, ((((s0.trans s1).trans s2).trans s3).trans s4).trans hs, ?_, ?_⟩
    · simp [hcalls, Event.succeeded]
    · cases r.2 <;> cases g.2 <;>
        simp [hok, Event.ok_addResources, Event.ok_addTags, Event.ok_progressMessage]

/-- What the outer loop of `initializeDb` does: for every storage, registration
and then the inner loop, whatever the earlier calls answered; it logs nothing
exactly when every call succeeded. -/
theorem initializeDb.loop_calls_all (env : Env) (l : List KisResourceStorage) (w : World) :
    ∃ es ms, Steps w (initializeDb.loop env l w) es ms ∧
      es.map Event.succeeded = l.flatMap (initializeDb.callsFor env) ∧
      (ms = [] ↔ ∀ e ∈ es, e.ok = true) := by
  induction l generalizing w with
  | nil => exact ⟨[], [], Steps.refl w, by simp [initializeDb.loop]⟩
  | cons s rest ih =>
    simp only [initializeDb.loop]
    generalize hr : env.addStorage w.fs w.db s
      (if s.type = StorageType.Folder then false else true) = r
    generalize hw1 : ({ w with db := r.1 }).emit
      (Event.addStorage s.location (if s.type = StorageType.Folder then false else true) r.2) = w1
    have s1 : Steps w w1 _ _ := hw1 ▸ Steps.call w r.1 _
    generalize hw2 : (if (!r.2) = true then w1.error (Message.couldNotAddStorage s.location) else w1)
      = w2
    have s2 : Steps w1 w2 _ _ := hw2 ▸ Steps.errorUnless w1 r.2 _
    obtain ⟨es1, ms1, hs1, hc1, hok1⟩ := initializeDb.addTypes_spec env s env.resourceTypes w2
    obtain ⟨es, ms, hs, hcalls, hok⟩ :=
      ih (initializeDb.addTypes env s env.resourceTypes w2)
    refine ⟨_, _, ((s1.trans s2).trans hs1).trans hs, ?_, ?_⟩
    · simp [hcalls, hc1, Event.succeeded, initializeDb.callsFor]
    · cases r.2 <;> simp [hok, hok1, Event.ok_addStorage, or_imp, forall_and]

/-- Claim C9 (best-effort bulk load).  `initializeDb` announces itself and then asks
the cache database, for every storage of the freshly found set,
`KisResourceCacheDb::addStorage` and, for every resource type, `addResources` and
`addTags`: every one of these calls, in this order, each on the database the
call before it left and whatever the earlier calls answered.  The database at
the end is the one these calls leave, the trace is these calls with the answers
the database gave, and the error log is one message per call that answered
false.  It answers true exactly when every one of the calls answered true.
`firstTimeInstallation` answers `CannotInitializeDb` exactly when it gets as far
as `initializeDb` (every type directory is in place) and `initializeDb` answers
false. -/
theorem initializeDb_best_effort (env : Env) (initalizationStatus : InitalizationStatus)
    (installationResourcesLocation : String) (w : World) :
    (newEvents w (initializeDb env w).2).map Event.succeeded =
        Event.progressMessage Progress.initializingResources ::
          (storages (findStorages w)).flatMap (initializeDb.callsFor env) ∧
      ((initializeDb env w).1 = true ↔ ∀ e ∈ newEvents w (initializeDb env w).2, e.ok = true) ∧
      ((firstTimeInstallation env initalizationStatus installationResourcesLocation w).1 =
          LocatorError.CannotInitializeDb ↔
        ∃ w1, firstTimeInstallation.createFolders env env.resourceTypes
            (w.emit (Event.progressMessage Progress.runningFirstTime)) = (none, w1) ∧
          (initializeDb env
            (firstTimeInstallation.install env installationResourcesLocation w1)).1 = false) ∧
      (initializeDb env w).2.db =
        (askAll env w.fs (initializeDb.calls env (storages (findStorages w))) w.db).1 ∧
      newEvents w (initializeDb env w).2 =
        Event.progressMessage Progress.initializingResources ::
          recorded (initializeDb.calls env (storages (findStorages w)))
            (askAll env w.fs (initializeDb.calls env (storages (findStorages w))) w.db).2 ∧
      (initializeDb env w).2.d.errorMessages =
        failures (initializeDb.calls env (storages (findStorages w)))
          (askAll env w.fs (initializeDb.calls env (storages (findStorages w))) w.db).2 ∧
      ((initializeDb env w).1 = true ↔
        ∀ a ∈ (askAll env w.fs (initializeDb.calls env (storages (findStorages w))) w.db).2,
          a = true) := by
  obtain ⟨es, ms, hs, hcalls, hok⟩ := initializeDb.loop_calls_all env
    (storages (findStorages (w.emit (Event.progressMessage Progress.initializingResources)).clearErrors))
    (findStorages (w.emit (Event.progressMessage Progress.initializingResources)).clearErrors)
  obtain ⟨h1, h2, _⟩ := hs
  have hn : newEvents w (initializeDb env w).2 =
      Event.progressMessage Progress.initializingResources :: es := by
    apply newEvents_of_trace
    show (initializeDb.loop env _ _).trace = _
    rw [h1]
    simp [findStorages, World.clearErrors, World.emit]
  have hm : (initializeDb env w).2.d.errorMessages = ms := by
    show (initializeDb.loop env _ _).d.errorMessages = _
    rw [h2]
    rfl
  refine ⟨?_, ?_, ?_, initializeDb_asked env w⟩
  · rw [hn, List.map_cons, hcalls]
    rfl
  · show ((initializeDb env w).2.d.errorMessages.isEmpty = true ↔ _)
    rw [hm, hn, List.isEmpty_iff, hok]
    simp [Event.ok_progressMessage]
  · cases hc : firstTimeInstallation.createFolders env env.resourceTypes
        (w.emit (Event.progressMessage Progress.runningFirstTime)) with
    | mk failed w1 =>
      cases failed with
      | some t => simp [firstTimeInstallation, hc]
      | none =>
        cases h : (initializeDb env
          (firstTimeInstallation.install env installationResourcesLocation w1)).1 <;>
          simp [firstTimeInstallation, hc, h]

/-- Witness for C9: the root folder storage cannot be registered and the tags of
the brushes cannot be added, for either storage; every call is made all the
same, the three failures are logged and the answer is false; with a database
that accepts everything the answer is true. -/
theorem initializeDb_best_effort_witness :
    (initializeDb envBulkFails cold).1 = false ∧
      (initializeDb envBulkFails cold).2.d.errorMessages =
        [Message.couldNotAddStorage "/r", Message.couldNotAddTags "brushes",
          Message.couldNotAddTags "brushes"] ∧
      (askAll envBulkFails cold.fs
        (initializeDb.calls envBulkFails (storages (findStorages cold))) cold.db).2 =
        [false, true, false, true, true, true, true, false, true, true] ∧
      (initializeDb sampleEnv cold).1 = true :=
  ⟨by decide, by decide, by decide,
    (initializeDb_best_effort sampleEnv InitalizationStatus.FirstRun "/i" cold).2.2.2.2.2.2.mpr
      (by decide)⟩

/-! ## The trace only grows -/

theorem World.mkpath_trace (env : Env) (p : String) (w : World) :
    w.trace <+: (World.mkpath env p w).2.trace :=
  List.prefix_append _ _

theorem World.copy_trace (env : Env) (s t : String) (w : World) :
    w.trace <+: (World.copy env s t w).2.trace :=
  List.prefix_append _ _

theorem World.emit_trace (w : World) (e : Event) : w.trace <+: (w.emit e).trace :=
  List.prefix_append _ _

theorem firstTimeInstallation.createFolders_trace (env : Env) (l : List String) (w : World) :
    w.trace <+: (firstTimeInstallation.createFolders env l w).2.trace := by
  induction l generalizing w with
  | nil => exact List.prefix_refl _
  | cons f rest ih =>
    unfold firstTimeInstallation.createFolders
    split
    · dsimp only
      split
      · exact World.mkpath_trace env _ w
      · exact (World.mkpath_trace env _ w).trans (ih _)
    · exact ih w

theorem firstTimeInstallation.copyEntries_trace (env : Env) (sourceDir folder : String)
    (l : List String) (w : World) :
    w.trace <+: (firstTimeInstallation.copyEntries env sourceDir folder l w).trace := by
  induction l generalizing w with
  | nil => exact List.prefix_refl _
  | cons f rest ih =>
    unfold firstTimeInstallation.copyEntries
    split
    · dsimp only
      refine List.IsPrefix.trans ?_ (ih _)
      split
      · exact World.copy_trace env _ _ w
      · exact World.copy_trace env _ _ w
    · exact ih w

theorem firstTimeInstallation.copyTypes_trace (env : Env) (inst : String) (l : List String)
    (w : World) : w.trace <+: (firstTimeInstallation.copyTypes env inst l w).trace := by
  induction l generalizing w with
  | nil => exact List.prefix_refl _
  | cons f rest ih =>
    unfold firstTimeInstallation.copyTypes
    split
    · exact (firstTimeInstallation.copyEntries_trace env _ _ _ w).trans (ih _)
    · exact ih w

theorem firstTimeInstallation.copyArchives_trace (env : Env) (l : List (String × String))
    (w : World) : w.trace <+: (firstTimeInstallation.copyArchives env l w).trace := by
  induction l generalizing w with
  | nil => exact List.prefix_refl _
  | cons f rest ih =>
    obtain ⟨filePath, name⟩ := f
    unfold firstTimeInstallation.copyArchives
    dsimp only
    refine List.IsPrefix.trans ?_ (ih _)
    refine (World.emit_trace w (Event.progressMessage (Progress.installingBundle filePath))).trans ?_
    split
    · exact World.copy_trace env _ _ _
    · exact World.copy_trace env _ _ _

theorem firstTimeInstallation.install_trace (env : Env) (inst : String) (w : World) :
    w.trace <+: (firstTimeInstallation.install env inst w).trace := by
  unfold firstTimeInstallation.install
  dsimp only
  refine (firstTimeInstallation.copyTypes_trace env inst env.resourceTypes w).trans ?_
  refine (firstTimeInstallation.copyArchives_trace env
    (QDirIterator.entries (firstTimeInstallation.copyTypes env inst env.resourceTypes w).fs inst)
    (firstTimeInstallation.copyTypes env inst env.resourceTypes w)).trans ?_
  exact List.prefix_append _ _

theorem initializeDb_trace (env : Env) (w : World) : w.trace <+: (initializeDb env w).2.trace := by
  obtain ⟨es, ms, hs, _, _⟩ := initializeDb.loop_calls_all env
    (storages (findStorages (w.emit (Event.progressMessage Progress.initializingResources)).clearErrors))
    (findStorages (w.emit (Event.progressMessage Progress.initializingResources)).clearErrors)
  refine (World.emit_trace w (Event.progressMessage Progress.initializingResources)).trans ?_
  exact ⟨es, hs.1.symm⟩

/-- The method `firstTimeInstallation` announces itself before anything else. -/
theorem firstTimeInstallation_trace (env : Env) (st : InitalizationStatus) (inst : String)
    (w : World) :
    (w.trace ++ [Event.progressMessage Progress.runningFirstTime]) <+:
      (firstTimeInstallation env st inst w).2.trace := by
  have hc := firstTimeInstallation.createFolders_trace env env.resourceTypes
    (w.emit (Event.progressMessage Progress.runningFirstTime))
  cases hcr : firstTimeInstallation.createFolders env env.resourceTypes
      (w.emit (Event.progressMessage Progress.runningFirstTime)) with
  | mk failed w1 =>
    rw [hcr] at hc
    cases failed with
    | some t =>
      simp only [firstTimeInstallation, hcr]
      exact hc
    | none =>
      have h2 := hc.trans ((firstTimeInstallation.install_trace env inst w1).trans
        (initializeDb_trace env _))
      cases hi : (initializeDb env (firstTimeInstallation.install env inst w1)).1 <;>
        simpa [firstTimeInstallation, hcr, hi] using h2

/-- The result of `firstTimeInstallation` is one of three codes. -/
theorem firstTimeInstallation_codes (env : Env) (st : InitalizationStatus) (inst : String)
    (w : World) :
    (firstTimeInstallation env st inst w).1 = LocatorError.CannotCreateLocation ∨
      (firstTimeInstallation env st inst w).1 = LocatorError.CannotInitializeDb ∨
      (firstTimeInstallation env st inst w).1 = LocatorError.Ok := by
  cases hcr : firstTimeInstallation.createFolders env env.resourceTypes
      (w.emit (Event.progressMessage Progress.runningFirstTime)) with
  | mk failed w1 =>
    cases failed with
    | some t => simp [firstTimeInstallation, hcr]
    | none =>
      cases hi : (initializeDb env (firstTimeInstallation.install env inst w1)).1 <;>
        simp [firstTimeInstallation, hcr, hi]

/-- A run that reaches `firstTimeInstallation` has run installation. -/
theorem installationRan_firstTimeInstallation (env : Env) (st : InitalizationStatus)
    (inst : String) (w0 w : World) (h : w0.trace <+: w.trace) :
    installationRan w0 (firstTimeInstallation env st inst w).2 := by
  obtain ⟨t, ht⟩ := firstTimeInstallation_trace env st inst w
  obtain ⟨s, hs⟩ := h
  unfold installationRan
  rw [newEvents_of_trace w0 _ (s ++ Event.progressMessage Progress.runningFirstTime :: t)
    (by rw [← ht, ← hs]; simp)]
  simp

/-! ## Version numbers -/

theorem QVersionNumber.compare_antisymm (a b : QVersionNumber) :
    QVersionNumber.compare a b = - QVersionNumber.compare b a := by
  induction a generalizing b with
  | nil =>
    cases b with
    | nil => simp [QVersionNumber.compare]
    | cons y ys => by_cases h : y = 0 <;> simp [QVersionNumber.compare, h]
  | cons x xs ih =>
    cases b with
    | nil => by_cases h : x = 0 <;> simp [QVersionNumber.compare, h]
    | cons y ys =>
      by_cases h : x = y
      · subst h
        simp [QVersionNumber.compare, ih ys]
      · have h2 : ¬ y = x := fun e => h e.symm
        simp [QVersionNumber.compare, h, h2]

theorem QVersionNumber.compare_self (a : QVersionNumber) : QVersionNumber.compare a a = 0 := by
  induction a with
  | nil => simp [QVersionNumber.compare]
  | cons x xs ih => simp [QVersionNumber.compare, ih]

/-- The application is newer than a version exactly when that version is older. -/
theorem QVersionNumber.gt_iff (a b : QVersionNumber) :
    QVersionNumber.gt a b = true ↔ QVersionNumber.compare b a < 0 := by
  unfold QVersionNumber.gt
  rw [QVersionNumber.compare_antisymm b a]
  simp

/-! ## The initialisation state machine -/

/-- The last part of `initialize` never answers `LocationReadOnly`. -/
theorem initializeLocator.run_codes (env : Env) (st : InitalizationStatus) (inst : String)
    (w : World) : (initializeLocator.run env st inst w).1 ≠ LocatorError.LocationReadOnly := by
  unfold initializeLocator.run
  split
  · rcases firstTimeInstallation_codes env st inst w with h | h | h <;> rw [h] <;> decide
  · dsimp only
    split <;> simp

/-- With an existing, writable root the status comes from the version marker. -/
theorem initializeLocator_of_writable (env : Env) (inst : String) (w : World)
    (h1 : QFileInfo.exists w.fs (configuredResourceLocation env) = true)
    (h2 : QFileInfo.isWritable w.fs (configuredResourceLocation env) = true) :
    initializeLocator env inst w =
      initializeLocator.run env
        (initializeLocator.markerStatus env w.fs (configuredResourceLocation env)) inst
        (w.setResourceLocation (configuredResourceLocation env)) := by
  have e1 : QFileInfo.exists (w.setResourceLocation (configuredResourceLocation env)).fs
      (w.setResourceLocation (configuredResourceLocation env)).d.resourceLocation = true := h1
  have e2 : QFileInfo.isWritable (w.setResourceLocation (configuredResourceLocation env)).fs
      (w.setResourceLocation (configuredResourceLocation env)).d.resourceLocation = true := h2
  simp only [initializeLocator, e1, initializeLocator.checked, e2]
  simp [World.setResourceLocation]

/-- With a root that had to be created, and came out writable, `initialize` is
`firstTimeInstallation`. -/
theorem initializeLocator_of_created (env : Env) (inst : String) (w : World)
    (h1 : QFileInfo.exists w.fs (configuredResourceLocation env) = false)
    (h2 : (QDir.mkpath env w.fs (configuredResourceLocation env)).2 = true)
    (h3 : QFileInfo.isWritable (QDir.mkpath env w.fs (configuredResourceLocation env)).1
      (configuredResourceLocation env) = true) :
    initializeLocator env inst w =
      firstTimeInstallation env InitalizationStatus.FirstRun inst
        (World.mkpath env (configuredResourceLocation env)
          (w.setResourceLocation (configuredResourceLocation env))).2 := by
  have e1 : QFileInfo.exists (w.setResourceLocation (configuredResourceLocation env)).fs
      (w.setResourceLocation (configuredResourceLocation env)).d.resourceLocation = false := h1
  have e2 : (World.mkpath env (w.setResourceLocation (configuredResourceLocation env)).d.resourceLocation
      (w.setResourceLocation (configuredResourceLocation env))).1 = true := h2
  have e3 : QFileInfo.isWritable
      (World.mkpath env (w.setResourceLocation (configuredResourceLocation env)).d.resourceLocation
        (w.setResourceLocation (configuredResourceLocation env))).2.fs
      (World.mkpath env (w.setResourceLocation (configuredResourceLocation env)).d.resourceLocation
        (w.setResourceLocation (configuredResourceLocation env))).2.d.resourceLocation = true := h3
  simp only [initializeLocator, e1, e2, initializeLocator.checked, e3, initializeLocator.run]
  simp [World.setResourceLocation]

/-- The status read off the marker is `Initialized` unless the marker is absent
or holds an older version. -/
theorem initializeLocator.markerStatus_eq (env : Env) (fs : FileSystem) (root : String) :
    initializeLocator.markerStatus env fs root ≠ InitalizationStatus.Initialized ↔
      (QFileInfo.exists fs (root ++ "/" ++ "KRITA_RESOURCE_VERSION") = false ∨
        (env.versionFromString (QFile.readAll fs (root ++ "/" ++ "KRITA_RESOURCE_VERSION")) ≠
            env.versionFromString env.versionString ∧
          QVersionNumber.compare
            (env.versionFromString (QFile.readAll fs (root ++ "/" ++ "KRITA_RESOURCE_VERSION")))
            (env.versionFromString env.versionString) < 0)) := by
  unfold initializeLocator.markerStatus
  cases hm : QFileInfo.exists fs (root ++ "/" ++ "KRITA_RESOURCE_VERSION") with
  | false => simp
  | true =>
    cases hg : QVersionNumber.gt (env.versionFromString env.versionString)
      (env.versionFromString (QFile.readAll fs (root ++ "/" ++ "KRITA_RESOURCE_VERSION"))) with
    | true =>
      have hlt := (QVersionNumber.gt_iff _ _).mp hg
      have hne : env.versionFromString (QFile.readAll fs (root ++ "/" ++ "KRITA_RESOURCE_VERSION")) ≠
          env.versionFromString env.versionString := by
        intro e
        rw [e, QVersionNumber.compare_self] at hlt
        exact absurd hlt (by decide)
      simp [hlt, hne, hg]
    | false =>
      have hlt : ¬ QVersionNumber.compare
          (env.versionFromString (QFile.readAll fs (root ++ "/" ++ "KRITA_RESOURCE_VERSION")))
          (env.versionFromString env.versionString) < 0 := fun h => by
        have := (QVersionNumber.gt_iff _ _).mpr h
        rw [hg] at this
        exact Bool.false_ne_true this
      simp [hlt, hg]

/-- With a missing root that cannot be created, `initialize` gives up at once. -/
theorem initializeLocator_of_mkpath_failed (env : Env) (inst : String) (w : World)
    (h1 : QFileInfo.exists w.fs (configuredResourceLocation env) = false)
    (h2 : (QDir.mkpath env w.fs (configuredResourceLocation env)).2 = false) :
    initializeLocator env inst w =
      (LocatorError.CannotCreateLocation,
        (World.mkpath env (configuredResourceLocation env)
          (w.setResourceLocation (configuredResourceLocation env))).2.error
          (Message.couldNotCreateLocation1 (configuredResourceLocation env))) := by
  have e1 : QFileInfo.exists (w.setResourceLocation (configuredResourceLocation env)).fs
      (w.setResourceLocation (configuredResourceLocation env)).d.resourceLocation = false := h1
  have e2 : (World.mkpath env (w.setResourceLocation (configuredResourceLocation env)).d.resourceLocation
      (w.setResourceLocation (configuredResourceLocation env))).1 = false := h2
  simp only [initializeLocator, e1, e2]
  simp [World.setResourceLocation]

/-- With a missing root that is created but comes out read-only, `initialize`
gives up after the creation. -/
theorem initializeLocator_of_created_read_only (env : Env) (inst : String) (w : World)
    (h1 : QFileInfo.exists w.fs (configuredResourceLocation env) = false)
    (h2 : (QDir.mkpath env w.fs (configuredResourceLocation env)).2 = true)
    (h3 : QFileInfo.isWritable (QDir.mkpath env w.fs (configuredResourceLocation env)).1
      (configuredResourceLocation env) = false) :
    initializeLocator env inst w =
      (LocatorError.LocationReadOnly,
        (World.mkpath env (configuredResourceLocation env)
          (w.setResourceLocation (configuredResourceLocation env))).2.error
          (Message.locationNotWritable2 (configuredResourceLocation env))) := by
  have e1 : QFileInfo.exists (w.setResourceLocation (configuredResourceLocation env)).fs
      (w.setResourceLocation (configuredResourceLocation env)).d.resourceLocation = false := h1
  have e2 : (World.mkpath env (w.setResourceLocation (configuredResourceLocation env)).d.resourceLocation
      (w.setResourceLocation (configuredResourceLocation env))).1 = true := h2
  have e3 : QFileInfo.isWritable
      (World.mkpath env (w.setResourceLocation (configuredResourceLocation env)).d.resourceLocation
        (w.setResourceLocation (configuredResourceLocation env))).2.fs
      (World.mkpath env (w.setResourceLocation (configuredResourceLocation env)).d.resourceLocation
        (w.setResourceLocation (configuredResourceLocation env))).2.d.resourceLocation =
      false := h3
  simp only [initializeLocator, e1, e2, initializeLocator.checked, e3]
  simp [World.setResourceLocation, World.mkpath, World.emit]

/-- The calls of a run that stopped right after the `mkpath` of the root. -/
theorem newEvents_mkpath_error (env : Env) (w : World) (m : Message) :
    newEvents w ((World.mkpath env (configuredResourceLocation env)
      (w.setResourceLocation (configuredResourceLocation env))).2.error m) =
      [Event.mkpath (cleanPath (configuredResourceLocation env))
        (QDir.mkpath env w.fs (configuredResourceLocation env)).2] :=
  newEvents_of_trace w _ _ (by simp [World.error, World.setResourceLocation, World.mkpath,
    World.emit])

/-- With an existing, writable root whose marker is absent, `initialize` is
`firstTimeInstallation` in the status `FirstUpdate`. -/
theorem initializeLocator_of_no_marker (env : Env) (inst : String) (w : World)
    (h1 : QFileInfo.exists w.fs (configuredResourceLocation env) = true)
    (h2 : QFileInfo.isWritable w.fs (configuredResourceLocation env) = true)
    (h3 : QFileInfo.exists w.fs
      (configuredResourceLocation env ++ "/" ++ "KRITA_RESOURCE_VERSION") = false) :
    initializeLocator env inst w =
      firstTimeInstallation env InitalizationStatus.FirstUpdate inst
        (w.setResourceLocation (configuredResourceLocation env)) := by
  rw [initializeLocator_of_writable env inst w h1 h2]
  have hs : initializeLocator.markerStatus env w.fs (configuredResourceLocation env) =
      InitalizationStatus.FirstUpdate := by
    simp [initializeLocator.markerStatus, h3]
  rw [hs]
  simp [initializeLocator.run]

/-- With an existing, writable root whose marker holds an older version,
`initialize` is `firstTimeInstallation` in the status `Updating`. -/
theorem initializeLocator_of_older_marker (env : Env) (inst : String) (w : World)
    (h1 : QFileInfo.exists w.fs (configuredResourceLocation env) = true)
    (h2 : QFileInfo.isWritable w.fs (configuredResourceLocation env) = true)
    (h3 : QFileInfo.exists w.fs
      (configuredResourceLocation env ++ "/" ++ "KRITA_RESOURCE_VERSION") = true)
    (h4 : QVersionNumber.compare
      (env.versionFromString (QFile.readAll w.fs
        (configuredResourceLocation env ++ "/" ++ "KRITA_RESOURCE_VERSION")))
      (env.versionFromString env.versionString) < 0) :
    initializeLocator env inst w =
      firstTimeInstallation env InitalizationStatus.Updating inst
        (w.setResourceLocation (configuredResourceLocation env)) := by
  rw [initializeLocator_of_writable env inst w h1 h2]
  have hg := (QVersionNumber.gt_iff _ _).mpr h4
  have hs : initializeLocator.markerStatus env w.fs (configuredResourceLocation env) =
      InitalizationStatus.Updating := by
    simp [initializeLocator.markerStatus, h3, hg]
  rw [hs]
  simp [initializeLocator.run]

/-- With an existing, writable root whose marker holds a version that is not
older, `initialize` is `synchronizeDb`. -/
theorem initializeLocator_of_current_marker (env : Env) (inst : String) (w : World)
    (h1 : QFileInfo.exists w.fs (configuredResourceLocation env) = true)
    (h2 : QFileInfo.isWritable w.fs (configuredResourceLocation env) = true)
    (h3 : QFileInfo.exists w.fs
      (configuredResourceLocation env ++ "/" ++ "KRITA_RESOURCE_VERSION") = true)
    (h4 : ¬ QVersionNumber.compare
      (env.versionFromString (QFile.readAll w.fs
        (configuredResourceLocation env ++ "/" ++ "KRITA_RESOURCE_VERSION")))
      (env.versionFromString env.versionString) < 0) :
    initializeLocator env inst w =
      (if (synchronizeDb env (w.setResourceLocation (configuredResourceLocation env))).1 = true
        then LocatorError.Ok else LocatorError.CannotSynchronizeDb,
        (synchronizeDb env (w.setResourceLocation (configuredResourceLocation env))).2) := by
  apply initializeLocator_of_alreadyInitialized
  have hs : initializeLocator.markerStatus env w.fs (configuredResourceLocation env) =
      InitalizationStatus.Initialized := by
    by_contra hne
    rcases (initializeLocator.markerStatus_eq env w.fs _).mp hne with h | h
    · rw [h3] at h
      exact Bool.noConfusion h
    · exact h4 h.2
  simp [alreadyInitialized, h1, h2, hs]

/-- Claim C4 (version gating), as amended.  For an existing, writable resource
root, `initialize` runs installation exactly when the version marker is absent
or holds a version that differs from and is older than the application's: with
the marker absent the call is `firstTimeInstallation` in the status
`FirstUpdate`, with an older marker it is `firstTimeInstallation` in the status
`Updating`, and otherwise it is `synchronizeDb` with its answer turned into the
result code; when the marker's version is the application's, every call made is
a `synchronizeStorage` call and the filesystem is as before.  A root that did
not exist is created first; if that succeeds and the root is writable the call
is `firstTimeInstallation` in the status `FirstRun` on the world the creation
left; if the creation fails the result is `CannotCreateLocation`, and if the new
root is not writable the result is `LocationReadOnly`, in both cases with the
`mkpath` of the root as the only call made and the database untouched. -/
theorem initializeLocator_version_gating (env : Env) (installationResourcesLocation : String)
    (w : World) :
    (QFileInfo.exists w.fs (configuredResourceLocation env) = true →
      QFileInfo.isWritable w.fs (configuredResourceLocation env) = true →
      (installationRan w (initializeLocator env installationResourcesLocation w).2 ↔
        (QFileInfo.exists w.fs
            (configuredResourceLocation env ++ "/" ++ "KRITA_RESOURCE_VERSION") = false ∨
          (env.versionFromString (QFile.readAll w.fs
              (configuredResourceLocation env ++ "/" ++ "KRITA_RESOURCE_VERSION")) ≠
              env.versionFromString env.versionString ∧
            QVersionNumber.compare
              (env.versionFromString (QFile.readAll w.fs
                (configuredResourceLocation env ++ "/" ++ "KRITA_RESOURCE_VERSION")))
              (env.versionFromString env.versionString) < 0))) ∧
      (QFileInfo.exists w.fs
          (configuredResourceLocation env ++ "/" ++ "KRITA_RESOURCE_VERSION") = true →
        env.versionFromString (QFile.readAll w.fs
            (configuredResourceLocation env ++ "/" ++ "KRITA_RESOURCE_VERSION")) =
          env.versionFromString env.versionString →
        (initializeLocator env installationResourcesLocation w).2 =
          (synchronizeDb env (w.setResourceLocation (configuredResourceLocation env))).2 ∧
        (∀ e ∈ newEvents w (initializeLocator env installationResourcesLocation w).2,
          e.isSynchronizeStorage = true) ∧
        (initializeLocator env installationResourcesLocation w).2.fs = w.fs) ∧
      (QFileInfo.exists w.fs
          (configuredResourceLocation env ++ "/" ++ "KRITA_RESOURCE_VERSION") = false →
        initializeLocator env installationResourcesLocation w =
          firstTimeInstallation env InitalizationStatus.FirstUpdate
            installationResourcesLocation
            (w.setResourceLocation (configuredResourceLocation env))) ∧
      (QFileInfo.exists w.fs
          (configuredResourceLocation env ++ "/" ++ "KRITA_RESOURCE_VERSION") = true →
        QVersionNumber.compare
            (env.versionFromString (QFile.readAll w.fs
              (configuredResourceLocation env ++ "/" ++ "KRITA_RESOURCE_VERSION")))
            (env.versionFromString env.versionString) < 0 →
        initializeLocator env installationResourcesLocation w =
          firstTimeInstallation env InitalizationStatus.Updating
            installationResourcesLocation
            (w.setResourceLocation (configuredResourceLocation env))) ∧
      (QFileInfo.exists w.fs
          (configuredResourceLocation env ++ "/" ++ "KRITA_RESOURCE_VERSION") = true →
        ¬ QVersionNumber.compare
            (env.versionFromString (QFile.readAll w.fs
              (configuredResourceLocation env ++ "/" ++ "KRITA_RESOURCE_VERSION")))
            (env.versionFromString env.versionString) < 0 →
        initializeLocator env installationResourcesLocation w =
          (if (synchronizeDb env
              (w.setResourceLocation (configuredResourceLocation env))).1 = true
            then LocatorError.Ok else LocatorError.CannotSynchronizeDb,
            (synchronizeDb env (w.setResourceLocation (configuredResourceLocation env))).2))) ∧
    (QFileInfo.exists w.fs (configuredResourceLocation env) = false →
      (QDir.mkpath env w.fs (configuredResourceLocation env)).2 = true →
      QFileInfo.isWritable (QDir.mkpath env w.fs (configuredResourceLocation env)).1
        (configuredResourceLocation env) = true →
      installationRan w (initializeLocator env installationResourcesLocation w).2) ∧
    (QFileInfo.exists w.fs (configuredResourceLocation env) = false →
      ((QDir.mkpath env w.fs (configuredResourceLocation env)).2 = true →
        QFileInfo.isWritable (QDir.mkpath env w.fs (configuredResourceLocation env)).1
          (configuredResourceLocation env) = true →
        initializeLocator env installationResourcesLocation w =
          firstTimeInstallation env InitalizationStatus.FirstRun installationResourcesLocation
            (World.mkpath env (configuredResourceLocation env)
              (w.setResourceLocation (configuredResourceLocation env))).2) ∧
      ((QDir.mkpath env w.fs (configuredResourceLocation env)).2 = false →
        (initializeLocator env installationResourcesLocation w).1 =
          LocatorError.CannotCreateLocation ∧
        newEvents w (initializeLocator env installationResourcesLocation w).2 =
          [Event.mkpath (cleanPath (configuredResourceLocation env)) false] ∧
        ¬ installationRan w (initializeLocator env installationResourcesLocation w).2 ∧
        (initializeLocator env installationResourcesLocation w).2.db = w.db) ∧
      ((QDir.mkpath env w.fs (configuredResourceLocation env)).2 = true →
        QFileInfo.isWritable (QDir.mkpath env w.fs (configuredResourceLocation env)).1
          (configuredResourceLocation env) = false →
        (initializeLocator env installationResourcesLocation w).1 =
          LocatorError.LocationReadOnly ∧
        newEvents w (initializeLocator env installationResourcesLocation w).2 =
          [Event.mkpath (cleanPath (configuredResourceLocation env)) true] ∧
        ¬ installationRan w (initializeLocator env installationResourcesLocation w).2 ∧
        (initializeLocator env installationResourcesLocation w).2.db = w.db)) := by
  refine ⟨fun h1 h2 => ⟨?_, ?_, ?_, ?_, ?_⟩, fun h1 h2 h3 => ?_, fun h1 => ⟨?_, ?_, ?_⟩⟩
  · rw [← initializeLocator.markerStatus_eq]
    by_cases hs : initializeLocator.markerStatus env w.fs (configuredResourceLocation env) =
        InitalizationStatus.Initialized
    · have hsync := (synchronizeDb_spec env
        (w.setResourceLocation (configuredResourceLocation env))).2.2.2.1
      have hinit : alreadyInitialized env w.fs = true := by
        simp [alreadyInitialized, h1, h2, hs]
      rw [initializeLocator_of_alreadyInitialized env _ w hinit]
      refine ⟨fun hran => ?_, fun hne => absurd hs hne⟩
      have := hsync _ hran
      simp [Event.isSynchronizeStorage] at this
    · rw [initializeLocator_of_writable env _ w h1 h2]
      have hrun : initializeLocator.run env
          (initializeLocator.markerStatus env w.fs (configuredResourceLocation env))
          installationResourcesLocation
          (w.setResourceLocation (configuredResourceLocation env)) =
          firstTimeInstallation env
            (initializeLocator.markerStatus env w.fs (configuredResourceLocation env))
            installationResourcesLocation
            (w.setResourceLocation (configuredResourceLocation env)) := by
        simp [initializeLocator.run, hs]
      rw [hrun]
      refine ⟨fun _ => hs, fun _ => ?_⟩
      exact installationRan_firstTimeInstallation env _ _ w _ (List.prefix_refl _)
  · intro hm hv
    have hs : initializeLocator.markerStatus env w.fs (configuredResourceLocation env) =
        InitalizationStatus.Initialized := by
      by_contra hne
      rcases (initializeLocator.markerStatus_eq env w.fs _).mp hne with h | h
      · rw [hm] at h
        exact Bool.noConfusion h
      · exact h.1 hv
    have hinit : alreadyInitialized env w.fs = true := by
      simp [alreadyInitialized, h1, h2, hs]
    rw [initializeLocator_of_alreadyInitialized env _ w hinit]
    have hsync := synchronizeDb_spec env (w.setResourceLocation (configuredResourceLocation env))
    exact ⟨rfl, hsync.2.2.2.1, hsync.2.2.2.2⟩
  · exact fun h3 => initializeLocator_of_no_marker env _ w h1 h2 h3
  · exact fun h3 h4 => initializeLocator_of_older_marker env _ w h1 h2 h3 h4
  · exact fun h3 h4 => initializeLocator_of_current_marker env _ w h1 h2 h3 h4
  · rw [initializeLocator_of_created env _ w h1 h2 h3]
    exact installationRan_firstTimeInstallation env _ _ w _ (List.prefix_append _ _)
  · exact fun h2 h3 => initializeLocator_of_created env _ w h1 h2 h3
  · intro h2
    rw [initializeLocator_of_mkpath_failed env _ w h1 h2]
    have hn := newEvents_mkpath_error env w
      (Message.couldNotCreateLocation1 (configuredResourceLocation env))
    rw [h2] at hn
    refine ⟨rfl, hn, ?_, rfl⟩
    unfold installationRan
    rw [hn]
    simp
  · intro h2 h3
    rw [initializeLocator_of_created_read_only env _ w h1 h2 h3]
    have hn := newEvents_mkpath_error env w
      (Message.locationNotWritable2 (configuredResourceLocation env))
    rw [h2] at hn
    refine ⟨rfl, hn, ?_, rfl⟩
    unfold installationRan
    rw [hn]
    simp

/-- Claim C5 (read-only abort), as amended.  Whenever `initialize` answers
`LocationReadOnly`, the cache database is as it was and nothing of installation,
migration or synchronisation has run: if the root existed, the filesystem is
as it was and no call was made; if it did not, the one call made is the
successful `mkpath` of the root and the filesystem is what that call left. -/
theorem initializeLocator_read_only (env : Env) (installationResourcesLocation : String)
    (w : World)
    (h : (initializeLocator env installationResourcesLocation w).1 =
      LocatorError.LocationReadOnly) :
    (initializeLocator env installationResourcesLocation w).2.db = w.db ∧
    (QFileInfo.exists w.fs (configuredResourceLocation env) = true →
      (initializeLocator env installationResourcesLocation w).2.fs = w.fs ∧
      newEvents w (initializeLocator env installationResourcesLocation w).2 = []) ∧
    (QFileInfo.exists w.fs (configuredResourceLocation env) = false →
      (initializeLocator env installationResourcesLocation w).2.fs =
        (QDir.mkpath env w.fs (configuredResourceLocation env)).1 ∧
      newEvents w (initializeLocator env installationResourcesLocation w).2 =
        [Event.mkpath (cleanPath (configuredResourceLocation env)) true]) := by
  cases h1 : QFileInfo.exists w.fs (configuredResourceLocation env) with
  | true =>
    cases h2 : QFileInfo.isWritable w.fs (configuredResourceLocation env) with
    | true =>
      rw [initializeLocator_of_writable env _ w h1 h2] at h
      exact absurd h (initializeLocator.run_codes env _ _ _)
    | false =>
      have e1 : QFileInfo.exists (w.setResourceLocation (configuredResourceLocation env)).fs
          (w.setResourceLocation (configuredResourceLocation env)).d.resourceLocation = true := h1
      have e2 : QFileInfo.isWritable (w.setResourceLocation (configuredResourceLocation env)).fs
          (w.setResourceLocation (configuredResourceLocation env)).d.resourceLocation = false := h2
      have hr : initializeLocator env installationResourcesLocation w =
          (LocatorError.LocationReadOnly,
            (w.setResourceLocation (configuredResourceLocation env)).error
              (Message.locationNotWritable2 (configuredResourceLocation env))) := by
        simp only [initializeLocator, e1, initializeLocator.checked, e2]
        simp [World.setResourceLocation]
      rw [hr]
      refine ⟨rfl, fun _ => ⟨rfl, ?_⟩, fun hc => Bool.noConfusion hc⟩
      exact newEvents_of_trace w _ [] (by simp [World.error, World.setResourceLocation])
  | false =>
    have e1 : QFileInfo.exists (w.setResourceLocation (configuredResourceLocation env)).fs
        (w.setResourceLocation (configuredResourceLocation env)).d.resourceLocation = false := h1
    cases h2 : (QDir.mkpath env w.fs (configuredResourceLocation env)).2 with
    | false =>
      have e2 : (World.mkpath env
          (w.setResourceLocation (configuredResourceLocation env)).d.resourceLocation
          (w.setResourceLocation (configuredResourceLocation env))).1 = false := h2
      simp [initializeLocator, e1, e2] at h
    | true =>
      have e2 : (World.mkpath env
          (w.setResourceLocation (configuredResourceLocation env)).d.resourceLocation
          (w.setResourceLocation (configuredResourceLocation env))).1 = true := h2
      cases h3 : QFileInfo.isWritable (QDir.mkpath env w.fs (configuredResourceLocation env)).1
          (configuredResourceLocation env) with
      | true =>
        rw [initializeLocator_of_created env _ w h1 h2 h3] at h
        rcases firstTimeInstallation_codes env InitalizationStatus.FirstRun
          installationResourcesLocation
          (World.mkpath env (configuredResourceLocation env)
            (w.setResourceLocation (configuredResourceLocation env))).2 with c | c | c <;>
          rw [c] at h <;> exact LocatorError.noConfusion h
      | false =>
        have e3 : QFileInfo.isWritable
            (World.mkpath env (w.setResourceLocation (configuredResourceLocation env)).d.resourceLocation
              (w.setResourceLocation (configuredResourceLocation env))).2.fs
            (World.mkpath env (w.setResourceLocation (configuredResourceLocation env)).d.resourceLocation
              (w.setResourceLocation (configuredResourceLocation env))).2.d.resourceLocation =
            false := h3
        have hr : initializeLocator env installationResourcesLocation w =
            (LocatorError.LocationReadOnly,
              (World.mkpath env (configuredResourceLocation env)
                (w.setResourceLocation (configuredResourceLocation env))).2.error
                (Message.locationNotWritable2 (configuredResourceLocation env))) := by
          simp only [initializeLocator, e1, e2, initializeLocator.checked, e3]
          simp [World.setResourceLocation, World.mkpath, World.emit]
        rw [hr]
        refine ⟨rfl, fun hc => Bool.noConfusion hc, fun _ => ⟨rfl, ?_⟩⟩
        exact newEvents_of_trace w _ _
          (by simp [World.error, World.setResourceLocation, World.mkpath, World.emit, h2])

/-- Counterexample to C4 as stated: the resource root does not exist and cannot be
created; `initialize` answers `CannotCreateLocation` and installation never runs. -/
theorem initializeLocator_missing_root_without_installation :
    QFileInfo.exists firstStart.fs (configuredResourceLocation envNoMkpath) = false ∧
      (initializeLocator envNoMkpath "/i" firstStart).1 = LocatorError.CannotCreateLocation ∧
      ¬ installationRan firstStart (initializeLocator envNoMkpath "/i" firstStart).2 := by
  decide

/-- Witness for C4: a root whose marker holds 4.1.0 is migrated (the call is
`firstTimeInstallation` in the status `Updating`); a root whose marker holds
4.2.0 is synchronised without a change to the filesystem; a root that is missing
is created and installed; a root that is missing and cannot be created gives
`CannotCreateLocation` with the failed `mkpath` as the only call. -/
theorem initializeLocator_version_gating_witness :
    installationRan upgradeStart (initializeLocator sampleEnv "/i" upgradeStart).2 ∧
      (initializeLocator sampleEnv "/i" laterStart).2.fs = laterStart.fs ∧
      installationRan firstStart (initializeLocator sampleEnv "/i" firstStart).2 ∧
      initializeLocator sampleEnv "/i" upgradeStart =
        firstTimeInstallation sampleEnv InitalizationStatus.Updating "/i"
          (upgradeStart.setResourceLocation (configuredResourceLocation sampleEnv)) ∧
      initializeLocator sampleEnv "/i" firstStart =
        firstTimeInstallation sampleEnv InitalizationStatus.FirstRun "/i"
          (World.mkpath sampleEnv (configuredResourceLocation sampleEnv)
            (firstStart.setResourceLocation (configuredResourceLocation sampleEnv))).2 ∧
      newEvents firstStart (initializeLocator envNoMkpath "/i" firstStart).2 =
        [Event.mkpath (cleanPath (configuredResourceLocation envNoMkpath)) false] :=
  ⟨((initializeLocator_version_gating sampleEnv "/i" upgradeStart).1 (by decide)
      (by decide)).1.mpr (Or.inr ⟨by decide, by decide⟩),
    (((initializeLocator_version_gating sampleEnv "/i" laterStart).1 (by decide)
      (by decide)).2.1 (by decide) (by decide)).2.2,
    (initializeLocator_version_gating sampleEnv "/i" firstStart).2.1 (by decide) (by decide)
      (by decide),
    ((initializeLocator_version_gating sampleEnv "/i" upgradeStart).1 (by decide)
      (by decide)).2.2.2.1 (by decide) (by decide),
    ((initializeLocator_version_gating sampleEnv "/i" firstStart).2.2 (by decide)).1
      (by decide) (by decide),
    (((initializeLocator_version_gating envNoMkpath "/i" firstStart).2.2 (by decide)).2.1
      (by decide)).2.1⟩

/-- Counterexample to C5 as stated: the resource root does not exist and is
created read-only; `initialize` answers `LocationReadOnly` after it has made the
directory, so the filesystem is not as it was. -/
theorem initializeLocator_read_only_after_mkpath :
    QFileInfo.exists firstStart.fs (configuredResourceLocation envReadOnlyDirs) = false ∧
      (initializeLocator envReadOnlyDirs "/i" firstStart).1 = LocatorError.LocationReadOnly ∧
      (initializeLocator envReadOnlyDirs "/i" firstStart).2.fs =
        firstStart.fs ++ [("/r", Node.dir false)] ∧
      (initializeLocator envReadOnlyDirs "/i" firstStart).2.fs ≠ firstStart.fs := by
  decide

/-- Witness for C5: the run of the counterexample, which answers `LocationReadOnly`. -/
theorem initializeLocator_read_only_witness :
    (initializeLocator envReadOnlyDirs "/i" firstStart).2.db = firstStart.db ∧
      (QFileInfo.exists firstStart.fs (configuredResourceLocation envReadOnlyDirs) = true →
        (initializeLocator envReadOnlyDirs "/i" firstStart).2.fs = firstStart.fs ∧
        newEvents firstStart (initializeLocator envReadOnlyDirs "/i" firstStart).2 = []) ∧
      (QFileInfo.exists firstStart.fs (configuredResourceLocation envReadOnlyDirs) = false →
        (initializeLocator envReadOnlyDirs "/i" firstStart).2.fs =
          (QDir.mkpath envReadOnlyDirs firstStart.fs
            (configuredResourceLocation envReadOnlyDirs)).1 ∧
        newEvents firstStart (initializeLocator envReadOnlyDirs "/i" firstStart).2 =
          [Event.mkpath (cleanPath (configuredResourceLocation envReadOnlyDirs)) true]) :=
  initializeLocator_read_only envReadOnlyDirs "/i" firstStart (by decide)

/-! ## Copy failures -/

/-- Claim C6 (copy failures surface in the result), at the failing input: the one
resource of the install source cannot be copied.  The message is logged by the
copy loop, but `initializeDb` clears the log afterwards: when `firstTimeInstallation`
returns the log is empty and the answer is `Ok`. -/
theorem firstTimeInstallation_copy_failure_lost :
    Event.copy "/i/brushes/a.gbr" "/r/brushes/a.gbr" false ∈
        (firstTimeInstallation envCopyFails InitalizationStatus.FirstUpdate "/i" bareRoot).2.trace ∧
      Message.couldNotCopyResource "/i/brushes/a.gbr" "/r/brushes/a.gbr" ∈
        (firstTimeInstallation.install envCopyFails "/i"
          (firstTimeInstallation.createFolders envCopyFails envCopyFails.resourceTypes
            (bareRoot.emit (Event.progressMessage Progress.runningFirstTime))).2).d.errorMessages ∧
      (firstTimeInstallation envCopyFails InitalizationStatus.FirstUpdate "/i"
        bareRoot).2.d.errorMessages = [] ∧
      (firstTimeInstallation envCopyFails InitalizationStatus.FirstUpdate "/i" bareRoot).1 =
        LocatorError.Ok := by
  decide

/-- Claim C7 (skip-if-exists installation), at the failing input: the bundle of
the install source is already in the resource root.  The archive loop has no
existence check: it calls `QFile::copy`, which refuses to overwrite, and logs
the copy error; the files of the root stay as they were. -/
theorem firstTimeInstallation_existing_archive_copied :
    QFileInfo.exists installedRoot.fs "/r/b.bundle" = true ∧
      Event.copy "/i/x/b.bundle" "/r/b.bundle" false ∈
        (firstTimeInstallation sampleEnv InitalizationStatus.Updating "/i" installedRoot).2.trace ∧
      Message.couldNotCopyResource "/i/x/b.bundle" "/r" ∈
        (firstTimeInstallation.install sampleEnv "/i"
          (firstTimeInstallation.createFolders sampleEnv sampleEnv.resourceTypes
            (installedRoot.emit (Event.progressMessage Progress.runningFirstTime))).2).d.errorMessages ∧
      (firstTimeInstallation sampleEnv InitalizationStatus.Updating "/i" installedRoot).2.fs =
        installedRoot.fs := by
  decide

/-! ## Failure to create a type directory -/

/-- What the first loopof `firstTimeInstallation` does when the directory of a
type cannot be created: it stops at the first such type. -/
theorem firstTimeInstallation.createFolders_fails (env : Env) (pre : List String) (t : String)
    (post : List String) (w : World)
    (hpre : ∀ u ∈ pre,
      (QDir.mkpath env w.fs (w.d.resourceLocation ++ "/" ++ u ++ "/")).2 = true)
    (ht : (QDir.mkpath env w.fs (w.d.resourceLocation ++ "/" ++ t ++ "/")).2 = false) :
    (firstTimeInstallation.createFolders env (pre ++ t :: post) w).1 = some t ∧
    (firstTimeInstallation.createFolders env (pre ++ t :: post) w).2.d =
      { w.d with errorMessages := w.d.errorMessages ++
        [Message.couldNotCreateLocation3 (cleanPath (w.d.resourceLocation ++ "/" ++ t ++ "/"))] } ∧
    (firstTimeInstallation.createFolders env (pre ++ t :: post) w).2.db = w.db ∧
    (∃ es, (firstTimeInstallation.createFolders env (pre ++ t :: post) w).2.trace = w.trace ++ es ∧
      ∀ e ∈ es, e.isMkpath = true) ∧
    (∀ path content readable writable,
      FileSystem.find (firstTimeInstallation.createFolders env (pre ++ t :: post) w).2.fs path =
          some (Node.file content readable writable) ↔
        FileSystem.find w.fs path = some (Node.file content readable writable)) ∧
    (∀ p, QDir.exists w.fs p = true →
      QDir.exists (firstTimeInstallation.createFolders env (pre ++ t :: post) w).2.fs p = true) ∧
    (∀ u ∈ pre, QDir.exists (firstTimeInstallation.createFolders env (pre ++ t :: post) w).2.fs
      (w.d.resourceLocation ++ "/" ++ u ++ "/") = true) := by
  induction pre generalizing w with
  | nil =>
    have hne := QDir.not_exists_of_mkpath_fails env w.fs _ ht
    have hcf : firstTimeInstallation.createFolders env ([] ++ t :: post) w =
        (some t, (World.mkpath env (w.d.resourceLocation ++ "/" ++ t ++ "/") w).2.error
          (Message.couldNotCreateLocation3
            (cleanPath (w.d.resourceLocation ++ "/" ++ t ++ "/")))) := by
      simp [firstTimeInstallation.createFolders, hne, World.mkpath, ht]
    rw [hcf]
    refine ⟨rfl, rfl, rfl, ⟨[Event.mkpath (cleanPath (w.d.resourceLocation ++ "/" ++ t ++ "/"))
      (QDir.mkpath env w.fs (w.d.resourceLocation ++ "/" ++ t ++ "/")).2], rfl, ?_⟩, ?_, ?_, ?_⟩
    · intro e he
      rw [List.mem_singleton.mp he]
      rfl
    · intro path content readable writable
      exact QDir.mkpath_files env w.fs _ path content readable writable
    · intro p hp
      exact QDir.exists_mkpath env w.fs _ p hp
    · intro u hu
      cases hu
  | cons u pre ih =>
    have hu := hpre u (List.mem_cons_self _ _)
    by_cases hex : QDir.exists w.fs (w.d.resourceLocation ++ "/" ++ u ++ "/") = true
    · have h := ih w (fun v hv => hpre v (List.mem_cons_of_mem _ hv)) ht
      have hcf : firstTimeInstallation.createFolders env (u :: pre ++ t :: post) w =
          firstTimeInstallation.createFolders env (pre ++ t :: post) w := by
        simp [firstTimeInstallation.createFolders, hex]
      rw [hcf]
      obtain ⟨h1, h2, h3, h4, h5, h6, h7⟩ := h
      refine ⟨h1, h2, h3, h4, h5, h6, ?_⟩
      intro v hv
      rcases List.mem_cons.mp hv with hv | hv
      · subst hv
        exact h6 _ hex
      · exact h7 v hv
    · have hex' : QDir.exists w.fs (w.d.resourceLocation ++ "/" ++ u ++ "/") = false := by
        simpa using hex
      have h := ih (World.mkpath env (w.d.resourceLocation ++ "/" ++ u ++ "/") w).2
        (by
          intro v hv
          show (QDir.mkpath env (QDir.mkpath env w.fs _).1 _).2 = true
          rw [QDir.mkpath_outcome_stable]
          exact hpre v (List.mem_cons_of_mem _ hv))
        (by
          show (QDir.mkpath env (QDir.mkpath env w.fs _).1 _).2 = false
          rw [QDir.mkpath_outcome_stable]
          exact ht)
      have h1 : (World.mkpath env (w.d.resourceLocation ++ "/" ++ u ++ "/") w).1 = true := hu
      have hcf : firstTimeInstallation.createFolders env (u :: pre ++ t :: post) w =
          firstTimeInstallation.createFolders env (pre ++ t :: post)
            (World.mkpath env (w.d.resourceLocation ++ "/" ++ u ++ "/") w).2 := by
        simp [firstTimeInstallation.createFolders, hex', h1]
      rw [hcf]
      obtain ⟨g1, g2, g3, g4, g5, g6, g7⟩ := h
      refine ⟨g1, g2, g3, ?_, ?_, ?_, ?_⟩
      · obtain ⟨es, hes, hall⟩ := g4
        refine ⟨Event.mkpath (cleanPath (w.d.resourceLocation ++ "/" ++ u ++ "/"))
          (QDir.mkpath env w.fs (w.d.resourceLocation ++ "/" ++ u ++ "/")).2 :: es, ?_, ?_⟩
        · rw [hes]
          simp [World.mkpath, World.emit]
        · intro e he
          rcases List.mem_cons.mp he with he | he
          · subst he
            rfl
          · exact hall e he
      · intro path content readable writable
        rw [g5]
        exact QDir.mkpath_files env w.fs _ path content readable writable
      · intro p hp
        exact g6 p (QDir.exists_mkpath env w.fs _ p hp)
      · intro v hv
        rcases List.mem_cons.mp hv with hv | hv
        · subst hv
          exact g6 _ (QDir.exists_of_mkpath env w.fs _ hu)
        · exact g7 v hv

/-- What `firstTimeInstallation` does when `t` is the first type whose directory
cannot be created. -/
theorem firstTimeInstallation_stops_at (env : Env)
    (initalizationStatus : InitalizationStatus) (installationResourcesLocation : String)
    (w : World) (pre : List String) (t : String) (post : List String)
    (htypes : env.resourceTypes = pre ++ t :: post)
    (hpre : ∀ u ∈ pre,
      (QDir.mkpath env w.fs (w.d.resourceLocation ++ "/" ++ u ++ "/")).2 = true)
    (ht : (QDir.mkpath env w.fs (w.d.resourceLocation ++ "/" ++ t ++ "/")).2 = false) :
    (firstTimeInstallation env initalizationStatus installationResourcesLocation w).1 =
      LocatorError.CannotCreateLocation ∧
    (firstTimeInstallation env initalizationStatus installationResourcesLocation w).2.d.errorMessages =
      w.d.errorMessages ++
        [Message.couldNotCreateLocation3 (cleanPath (w.d.resourceLocation ++ "/" ++ t ++ "/"))] ∧
    (∀ e ∈ newEvents w
        (firstTimeInstallation env initalizationStatus installationResourcesLocation w).2,
      e = Event.progressMessage Progress.runningFirstTime ∨ e.isMkpath = true) ∧
    (∀ path content readable writable,
      FileSystem.find
          (firstTimeInstallation env initalizationStatus installationResourcesLocation w).2.fs path =
          some (Node.file content readable writable) ↔
        FileSystem.find w.fs path = some (Node.file content readable writable)) ∧
    (firstTimeInstallation env initalizationStatus installationResourcesLocation w).2.db = w.db ∧
    (∀ u ∈ pre,
      QDir.exists (firstTimeInstallation env initalizationStatus installationResourcesLocation w).2.fs
        (w.d.resourceLocation ++ "/" ++ u ++ "/") = true) := by
  have h := firstTimeInstallation.createFolders_fails env pre t post
    (w.emit (Event.progressMessage Progress.runningFirstTime)) hpre ht
  obtain ⟨h1, h2, h3, ⟨es, hes, hall⟩, h5, _, h7⟩ := h
  have hr : firstTimeInstallation env initalizationStatus installationResourcesLocation w =
      (LocatorError.CannotCreateLocation,
        (firstTimeInstallation.createFolders env (pre ++ t :: post)
          (w.emit (Event.progressMessage Progress.runningFirstTime))).2) := by
    simp only [firstTimeInstallation, htypes, h1]
  rw [hr]
  refine ⟨rfl, ?_, ?_, h5, h3, h7⟩
  · show (firstTimeInstallation.createFolders env (pre ++ t :: post) _).2.d.errorMessages = _
    rw [h2]
    rfl
  · intro e he
    have hn : newEvents w (firstTimeInstallation.createFolders env (pre ++ t :: post)
        (w.emit (Event.progressMessage Progress.runningFirstTime))).2 =
        Event.progressMessage Progress.runningFirstTime :: es := by
      apply newEvents_of_trace
      rw [hes]
      simp [World.emit]
    rw [hn] at he
    rcases List.mem_cons.mp he with he | he
    · exact Or.inl he
    · exact Or.inr (hall e he)

/-- A list with an element on which a test fails splits at the first such element. -/
theorem exists_first_failure {α : Type} (p : α → Bool) (l : List α)
    (h : ∃ t ∈ l, p t = false) :
    ∃ pre t post, l = pre ++ t :: post ∧ (∀ u ∈ pre, p u = true) ∧ p t = false := by
  induction l with
  | nil =>
    obtain ⟨t, ht, _⟩ := h
    cases ht
  | cons x rest ih =>
    cases hx : p x with
    | false => exact ⟨[], x, rest, rfl, by simp, hx⟩
    | true =>
      obtain ⟨t, ht, hpt⟩ := h
      rcases List.mem_cons.mp ht with e | e
      · rw [e, hx] at hpt
        exact Bool.noConfusion hpt
      · obtain ⟨pre, t2, post, hl, hpre, ht2⟩ := ih ⟨t, e, hpt⟩
        refine ⟨x :: pre, t2, post, by rw [hl]; rfl, ?_, ht2⟩
        intro u hu
        rcases List.mem_cons.mp hu with e2 | e2
        · rw [e2]
          exact hx
        · exact hpre u e2

/-- Claim C8 (directory-creation failure aborts installation).  If the directory
`<root>/<type>/` of some registry type cannot be created (`mkpath` fails for it),
then there is a first such type `t` in registry order (`mkpath` succeeds for
every type before it), and `firstTimeInstallation` answers
`CannotCreateLocation` and logs the message for `t`; the only calls it made are
its announcement and `mkpath` calls, so no file was copied, no marker written
and the database not touched: the files of the filesystem and the database are
as before; and the directory of every type before `t` is in place. -/
theorem firstTimeInstallation_cannot_create_location (env : Env)
    (initalizationStatus : InitalizationStatus) (installationResourcesLocation : String)
    (w : World)
    (hfail : ∃ t ∈ env.resourceTypes,
      (QDir.mkpath env w.fs (w.d.resourceLocation ++ "/" ++ t ++ "/")).2 = false) :
    ∃ pre t post, env.resourceTypes = pre ++ t :: post ∧
      (∀ u ∈ pre,
        (QDir.mkpath env w.fs (w.d.resourceLocation ++ "/" ++ u ++ "/")).2 = true) ∧
      (QDir.mkpath env w.fs (w.d.resourceLocation ++ "/" ++ t ++ "/")).2 = false ∧
      (firstTimeInstallation env initalizationStatus installationResourcesLocation w).1 =
        LocatorError.CannotCreateLocation ∧
      (firstTimeInstallation env initalizationStatus installationResourcesLocation
          w).2.d.errorMessages =
        w.d.errorMessages ++
          [Message.couldNotCreateLocation3 (cleanPath (w.d.resourceLocation ++ "/" ++ t ++ "/"))] ∧
      (∀ e ∈ newEvents w
          (firstTimeInstallation env initalizationStatus installationResourcesLocation w).2,
        e = Event.progressMessage Progress.runningFirstTime ∨ e.isMkpath = true) ∧
      (∀ path content readable writable,
        FileSystem.find
            (firstTimeInstallation env initalizationStatus installationResourcesLocation w).2.fs
            path = some (Node.file content readable writable) ↔
          FileSystem.find w.fs path = some (Node.file content readable writable)) ∧
      (firstTimeInstallation env initalizationStatus installationResourcesLocation w).2.db =
        w.db ∧
      (∀ u ∈ pre,
        QDir.exists
          (firstTimeInstallation env initalizationStatus installationResourcesLocation w).2.fs
          (w.d.resourceLocation ++ "/" ++ u ++ "/") = true) := by
  obtain ⟨pre, t, post, hl, hpre, ht⟩ := exists_first_failure
    (fun t => (QDir.mkpath env w.fs (w.d.resourceLocation ++ "/" ++ t ++ "/")).2)
    env.resourceTypes hfail
  exact ⟨pre, t, post, hl, hpre, ht,
    firstTimeInstallation_stops_at env initalizationStatus installationResourcesLocation w
      pre t post hl hpre ht⟩

/-- Witness for C8: `/r/brushes` can be created and `/r/palettes` cannot; the
installation stops there, with `/r/brushes` in place. -/
theorem firstTimeInstallation_cannot_create_location_witness :
    (∃ pre t post, envNoPalettes.resourceTypes = pre ++ t :: post ∧
      (∀ u ∈ pre,
        (QDir.mkpath envNoPalettes bareRoot.fs
          (bareRoot.d.resourceLocation ++ "/" ++ u ++ "/")).2 = true) ∧
      (QDir.mkpath envNoPalettes bareRoot.fs
        (bareRoot.d.resourceLocation ++ "/" ++ t ++ "/")).2 = false ∧
      (firstTimeInstallation envNoPalettes InitalizationStatus.FirstUpdate "/i" bareRoot).1 =
        LocatorError.CannotCreateLocation ∧
      (firstTimeInstallation envNoPalettes InitalizationStatus.FirstUpdate "/i"
          bareRoot).2.d.errorMessages =
        bareRoot.d.errorMessages ++
          [Message.couldNotCreateLocation3
            (cleanPath (bareRoot.d.resourceLocation ++ "/" ++ t ++ "/"))] ∧
      (∀ e ∈ newEvents bareRoot
          (firstTimeInstallation envNoPalettes InitalizationStatus.FirstUpdate "/i" bareRoot).2,
        e = Event.progressMessage Progress.runningFirstTime ∨ e.isMkpath = true) ∧
      (∀ path content readable writable,
        FileSystem.find
            (firstTimeInstallation envNoPalettes InitalizationStatus.FirstUpdate "/i"
              bareRoot).2.fs
            path = some (Node.file content readable writable) ↔
          FileSystem.find bareRoot.fs path = some (Node.file content readable writable)) ∧
      (firstTimeInstallation envNoPalettes InitalizationStatus.FirstUpdate "/i" bareRoot).2.db =
        bareRoot.db ∧
      (∀ u ∈ pre,
        QDir.exists
          (firstTimeInstallation envNoPalettes InitalizationStatus.FirstUpdate "/i" bareRoot).2.fs
          (bareRoot.d.resourceLocation ++ "/" ++ u ++ "/") = true)) ∧
    (firstTimeInstallation envNoPalettes InitalizationStatus.FirstUpdate "/i"
      bareRoot).2.d.errorMessages = [Message.couldNotCreateLocation3 "/r/palettes"] ∧
    QDir.exists (firstTimeInstallation envNoPalettes InitalizationStatus.FirstUpdate "/i"
      bareRoot).2.fs "/r/brushes/" = true :=
  ⟨firstTimeInstallation_cannot_create_location envNoPalettes InitalizationStatus.FirstUpdate
      "/i" bareRoot ⟨"palettes", by decide, by decide⟩,
    by decide, by decide⟩

/-! ## Storage discovery -/

/-- The entries of a map after an assignment: the new one and old ones. -/
theorem QMap.mem_insert (m : List (String × KisResourceStorage)) (key : String)
    (v : KisResourceStorage) (e : String × KisResourceStorage)
    (h : e ∈ QMap.insert m key v) : e = (key, v) ∨ e ∈ m := by
  induction m with
  | nil => simpa [QMap.insert] using h
  | cons x rest ih =>
    obtain ⟨k, y⟩ := x
    unfold QMap.insert at h
    split at h
    · rcases List.mem_cons.mp h with h | h
      · exact Or.inl h
      · exact Or.inr h
    · split at h
      · rcases List.mem_cons.mp h with h | h
        · exact Or.inl h
        · exact Or.inr (List.mem_cons_of_mem _ h)
      · rcases List.mem_cons.mp h with h | h
        · exact Or.inr (h ▸ List.mem_cons_self _ _)
        · rcases ih h with h | h
          · exact Or.inl h
          · exact Or.inr (List.mem_cons_of_mem _ h)

/-- The keys of a map after an assignment: the assigned key and the old keys. -/
theorem QMap.mem_keys_insert (m : List (String × KisResourceStorage)) (key : String)
    (v : KisResourceStorage) (k : String) :
    k ∈ (QMap.insert m key v).map Prod.fst ↔ k = key ∨ k ∈ m.map Prod.fst := by
  induction m with
  | nil => simp [QMap.insert]
  | cons x rest ih =>
    obtain ⟨k1, y⟩ := x
    unfold QMap.insert
    split
    · simp
    · split
      · rename_i h
        subst h
        simp
      · simp only [List.map_cons, List.mem_cons, ih]
        tauto

/-- An assignment keeps the keys of a map in ascending order. -/
theorem QMap.ascending_insert (m : List (String × KisResourceStorage)) (key : String)
    (v : KisResourceStorage) (h : QMap.Ascending m) : QMap.Ascending (QMap.insert m key v) := by
  induction m with
  | nil => simp [QMap.insert, QMap.Ascending]
  | cons x rest ih =>
    obtain ⟨k, y⟩ := x
    unfold QMap.Ascending at h ih ⊢
    rw [List.pairwise_cons] at h
    unfold QMap.insert
    split
    · rename_i hlt
      refine List.pairwise_cons.mpr ⟨?_, List.pairwise_cons.mpr h⟩
      intro e he
      rcases List.mem_cons.mp he with he | he
      · rw [he]
        exact hlt
      · exact lt_trans hlt (h.1 e he)
    · split
      · rename_i heq
        subst heq
        exact List.pairwise_cons.mpr h
      · rename_i hlt hne
        refine List.pairwise_cons.mpr ⟨?_, ih h.2⟩
        intro e he
        rcases QMap.mem_insert rest key v e he with he | he
        · rw [he]
          have hd : key.data ≠ k.data := fun c => hne (String.ext c)
          rcases lt_trichotomy key.data k.data with c | c | c
          · exact absurd c hlt
          · exact absurd c hd
          · exact c
        · exact h.1 e he

/-- Two maps in ascending key order with the same keys, whose values are
determined by the keys, are the same map. -/
theorem QMap.ext_of_ascending (f : String → KisResourceStorage)
    (m1 m2 : List (String × KisResourceStorage))
    (h1 : QMap.Ascending m1) (h2 : QMap.Ascending m2)
    (hv1 : ∀ e ∈ m1, e.2 = f e.1) (hv2 : ∀ e ∈ m2, e.2 = f e.1)
    (hk : ∀ k, k ∈ m1.map Prod.fst ↔ k ∈ m2.map Prod.fst) : m1 = m2 := by
  induction m1 generalizing m2 with
  | nil =>
    cases m2 with
    | nil => rfl
    | cons y r2 =>
      have := (hk y.1).mpr (by simp)
      simp at this
  | cons x r1 ih =>
    cases m2 with
    | nil =>
      have := (hk x.1).mp (by simp)
      simp at this
    | cons y r2 =>
      unfold QMap.Ascending at h1 h2
      rw [List.pairwise_cons] at h1 h2
      have hxy : x.1 = y.1 := by
        have hx := (hk x.1).mp (by simp)
        have hy := (hk y.1).mpr (by simp)
        simp only [List.map_cons, List.mem_cons, List.mem_map] at hx hy
        rcases hx with hx | ⟨e, he, hex⟩
        · exact hx
        · rcases hy with hy | ⟨e2, he2, hex2⟩
          · exact hy.symm
          · have a := h2.1 e he
            have b := h1.1 e2 he2
            rw [hex] at a
            rw [hex2] at b
            exact absurd (lt_trans a b) (lt_irrefl _)
      have hxe : x = y := by
        have a := hv1 x (List.mem_cons_self _ _)
        have b := hv2 y (List.mem_cons_self _ _)
        exact Prod.ext hxy (by rw [a, b, hxy])
      subst hxe
      have hrest : r1 = r2 := by
        refine ih r2 h1.2 h2.2 (fun e he => hv1 e (List.mem_cons_of_mem _ he))
          (fun e he => hv2 e (List.mem_cons_of_mem _ he)) ?_
        intro k
        have hkk := hk k
        simp only [List.map_cons, List.mem_cons] at hkk
        constructor
        · intro hin
          rcases hkk.mp (Or.inr hin) with c | c
          · obtain ⟨e, he, hex⟩ := List.mem_map.mp hin
            have a := h1.1 e he
            rw [hex, c] at a
            exact absurd a (lt_irrefl _)
          · exact c
        · intro hin
          rcases hkk.mpr (Or.inr hin) with c | c
          · obtain ⟨e, he, hex⟩ := List.mem_map.mp hin
            have a := h2.1 e he
            rw [hex, c] at a
            exact absurd a (lt_irrefl _)
          · exact c
      rw [hrest]

/-- The keys after the loop of `findStorages`: the keys before and the paths listed. -/
theorem findStorages.addArchives_keys (fs : FileSystem) (l : List (String × String))
    (m : List (String × KisResourceStorage)) (k : String) :
    k ∈ (findStorages.addArchives fs l m).map Prod.fst ↔
      k ∈ m.map Prod.fst ∨ k ∈ l.map Prod.fst := by
  induction l generalizing m with
  | nil => simp [findStorages.addArchives]
  | cons x rest ih =>
    obtain ⟨filePath, name⟩ := x
    unfold findStorages.addArchives
    rw [ih, QMap.mem_keys_insert]
    simp only [KisResourceStorage.create, List.map_cons, List.mem_cons]
    tauto

/-- The loop of `findStorages` keeps the keys in ascending order. -/
theorem findStorages.addArchives_ascending (fs : FileSystem) (l : List (String × String))
    (m : List (String × KisResourceStorage)) (h : QMap.Ascending m) :
    QMap.Ascending (findStorages.addArchives fs l m) := by
  induction l generalizing m with
  | nil => exact h
  | cons x rest ih =>
    obtain ⟨filePath, name⟩ := x
    unfold findStorages.addArchives
    exact ih _ (QMap.ascending_insert m _ _ h)

/-- Every storage the loop of `findStorages` leaves in the map is the storage
made for its key. -/
theorem findStorages.addArchives_values (fs : FileSystem) (l : List (String × String))
    (m : List (String × KisResourceStorage))
    (h : ∀ e ∈ m, e.2 = KisResourceStorage.create fs e.1) :
    ∀ e ∈ findStorages.addArchives fs l m, e.2 = KisResourceStorage.create fs e.1 := by
  induction l generalizing m with
  | nil => exact h
  | cons x rest ih =>
    obtain ⟨filePath, name⟩ := x
    unfold findStorages.addArchives
    refine ih _ ?_
    intro e he
    rcases QMap.mem_insert m _ _ e he with he | he
    · rw [he]
      rfl
    · exact h e he

/-- The storage map `findStorages` leaves: in ascending key order, every storage
made for its key, the keys being the root and the archives listed. -/
theorem findStorages_map (w : World) :
    QMap.Ascending (findStorages w).d.storages ∧
      (∀ e ∈ (findStorages w).d.storages, e.2 = KisResourceStorage.create w.fs e.1) ∧
      (∀ k, k ∈ (findStorages w).d.storages.map Prod.fst ↔
        k = w.d.resourceLocation ∨ k ∈ archiveFiles w.fs w.d.resourceLocation) := by
  have hbase : QMap.insert [] (KisResourceStorage.create w.fs w.d.resourceLocation).location
      (KisResourceStorage.create w.fs w.d.resourceLocation) =
      [(w.d.resourceLocation, KisResourceStorage.create w.fs w.d.resourceLocation)] := rfl
  have hs : (findStorages w).d.storages = findStorages.addArchives w.fs
      (QDirIterator.entries w.fs w.d.resourceLocation)
      [(w.d.resourceLocation, KisResourceStorage.create w.fs w.d.resourceLocation)] := by
    simp only [findStorages, hbase]
  rw [hs]
  refine ⟨?_, ?_, ?_⟩
  · exact findStorages.addArchives_ascending _ _ _ (by simp [QMap.Ascending])
  · exact findStorages.addArchives_values _ _ _ (by simp)
  · intro k
    rw [findStorages.addArchives_keys]
    simp [archiveFiles]

/-- The identities of the storages are the keys of the map, when every storage
is the one made for its key. -/
theorem keys_eq_identities (fs : FileSystem) (m : List (String × KisResourceStorage))
    (h : ∀ e ∈ m, e.2 = KisResourceStorage.create fs e.1) :
    (m.map Prod.snd).map KisResourceStorage.location = m.map Prod.fst := by
  induction m with
  | nil => rfl
  | cons x rest ih =>
    have hx := h x (List.mem_cons_self _ _)
    simp only [List.map_cons, List.cons.injEq]
    refine ⟨?_, ih (fun e he => h e (List.mem_cons_of_mem _ he))⟩
    rw [hx]
    rfl

/-- Two maps in ascending key order with the same keys list them in the same order. -/
theorem QMap.keys_eq_of_ascending (m1 m2 : List (String × KisResourceStorage))
    (h1 : QMap.Ascending m1) (h2 : QMap.Ascending m2)
    (hk : ∀ k, k ∈ m1.map Prod.fst ↔ k ∈ m2.map Prod.fst) :
    m1.map Prod.fst = m2.map Prod.fst := by
  have e := QMap.ext_of_ascending (fun k => ⟨k, StorageType.Folder⟩)
    (m1.map (fun e => (e.1, (⟨e.1, StorageType.Folder⟩ : KisResourceStorage))))
    (m2.map (fun e => (e.1, (⟨e.1, StorageType.Folder⟩ : KisResourceStorage))))
    (by unfold QMap.Ascending at h1 ⊢; exact List.pairwise_map.mpr h1)
    (by unfold QMap.Ascending at h2 ⊢; exact List.pairwise_map.mpr h2)
    (by
      intro e he
      obtain ⟨x, _, hx⟩ := List.mem_map.mp he
      rw [← hx])
    (by
      intro e he
      obtain ⟨x, _, hx⟩ := List.mem_map.mp he
      rw [← hx])
    (by simpa [List.map_map, Function.comp_def] using hk)
  have := congrArg (List.map Prod.fst) e
  simpa [List.map_map, Function.comp_def] using this

/-- The archives found do not depend on the order of the listing. -/
theorem archiveFiles_perm (fs1 fs2 : FileSystem) (h : fs1.Perm fs2) (path k : String) :
    k ∈ archiveFiles fs1 path ↔ k ∈ archiveFiles fs2 path := by
  unfold archiveFiles QDirIterator.entries
  exact ((h.filterMap _).map _).mem_iff

/-- Claim C11 (idempotent discovery).  Whatever the filesystem and whatever the
storage set was before, the identities (locations) of the storages that
`findStorages` leaves are exactly the resource root and the archive files found
below it, each identity once, and each storage is the one made for its
identity.  The result does not depend on the storage set before the call, nor
on the order in which the iterator lists the archives (the whole map is the
same), nor on the order in which the filesystem lists its entries (the
identities are the same); a second call changes nothing. -/
theorem findStorages_idempotent_discovery (w : World) :
    (∀ location, location ∈ storageIdentities (findStorages w) ↔
      location = w.d.resourceLocation ∨ location ∈ archiveFiles w.fs w.d.resourceLocation) ∧
    (storageIdentities (findStorages w)).Nodup ∧
    (∀ e ∈ (findStorages w).d.storages, e.2 = KisResourceStorage.create w.fs e.1) ∧
    (∀ prior, (findStorages { w with d := { w.d with storages := prior } }).d.storages =
      (findStorages w).d.storages) ∧
    (∀ l, l.Perm (QDirIterator.entries w.fs w.d.resourceLocation) →
      findStorages.addArchives w.fs l
          (QMap.insert [] (KisResourceStorage.create w.fs w.d.resourceLocation).location
            (KisResourceStorage.create w.fs w.d.resourceLocation)) =
        (findStorages w).d.storages) ∧
    (∀ fs, fs.Perm w.fs →
      storageIdentities (findStorages { w with fs := fs }) =
        storageIdentities (findStorages w)) ∧
    findStorages (findStorages w) = findStorages w := by
  obtain ⟨hasc, hval, hkeys⟩ := findStorages_map w
  have hid : storageIdentities (findStorages w) = (findStorages w).d.storages.map Prod.fst :=
    keys_eq_identities w.fs _ hval
  refine ⟨?_, ?_, hval, fun _ => rfl, ?_, ?_, rfl⟩
  · intro location
    rw [hid]
    exact hkeys location
  · rw [hid]
    unfold QMap.Ascending at hasc
    refine List.pairwise_map.mpr (hasc.imp ?_)
    intro a b h e
    rw [e] at h
    exact lt_irrefl _ h
  · intro l hl
    have hbase : QMap.insert [] (KisResourceStorage.create w.fs w.d.resourceLocation).location
        (KisResourceStorage.create w.fs w.d.resourceLocation) =
        [(w.d.resourceLocation, KisResourceStorage.create w.fs w.d.resourceLocation)] := rfl
    rw [hbase]
    refine QMap.ext_of_ascending (KisResourceStorage.create w.fs) _ _
      (findStorages.addArchives_ascending _ _ _ (by simp [QMap.Ascending])) hasc
      (findStorages.addArchives_values _ _ _ (by simp)) hval ?_
    intro k
    rw [findStorages.addArchives_keys, hkeys]
    simp only [List.map_cons, List.map_nil, List.mem_singleton, archiveFiles]
    rw [(hl.map Prod.fst).mem_iff]
  · intro fs hfs
    obtain ⟨hasc2, hval2, hkeys2⟩ := findStorages_map { w with fs := fs }
    have hid2 : storageIdentities (findStorages { w with fs := fs }) =
        (findStorages { w with fs := fs }).d.storages.map Prod.fst :=
      keys_eq_identities fs _ hval2
    rw [hid, hid2]
    refine QMap.keys_eq_of_ascending _ _ hasc2 hasc ?_
    intro k
    rw [hkeys2, hkeys]
    exact or_congr Iff.rfl (archiveFiles_perm fs w.fs hfs _ k)

example : storageIdentities (findStorages cold) = ["/r", "/r/b.bundle"] := by decide

/-- Witness for C11: in `cold` the identities are the root and the one bundle, also
when the filesystem lists its entries in the reverse order and when the locator
held other storages before. -/
theorem findStorages_idempotent_discovery_witness :
    storageIdentities (findStorages cold) = ["/r", "/r/b.bundle"] ∧
      archiveFiles cold.fs cold.d.resourceLocation = ["/r/b.bundle"] ∧
      storageIdentities (findStorages { cold with fs := cold.fs.reverse }) =
        storageIdentities (findStorages cold) ∧
      (findStorages { cold with d := { cold.d with storages := [] } }).d.storages =
        (findStorages cold).d.storages :=
  ⟨by decide, by decide,
    (findStorages_idempotent_discovery cold).2.2.2.2.2.1 cold.fs.reverse
      (List.reverse_perm _),
    (findStorages_idempotent_discovery cold).2.2.2.1 []⟩

/-! ## The cache key -/

/-- Removing a key that is not there leaves the hash as it is. -/
theorem QHash.remove_of_not_contains {κ υ : Type} [DecidableEq κ] (h : List (κ × υ)) (key : κ)
    (hc : QHash.contains h key = false) : (QHash.remove h key).1 = h := by
  unfold QHash.remove
  induction h with
  | nil => rfl
  | cons e rest ih =>
    obtain ⟨k, v⟩ := e
    by_cases hk : k = key
    · simp [QHash.contains, hk] at hc
    · have hr : QHash.contains rest key = false := by simpa [QHash.contains, hk] using hc
      have ih2 : List.filter (fun e => decide (e.1 ≠ key)) rest = rest := ih hr
      show List.filter (fun e => decide (e.1 ≠ key)) ((k, v) :: rest) = (k, v) :: rest
      rw [List.filter_cons_of_pos (by simpa using hk), ih2]

/-- An assignment to a key that is not there puts the entry in front. -/
theorem QHash.insert_of_not_contains {κ υ : Type} [DecidableEq κ] (h : List (κ × υ)) (key : κ)
    (v : υ) (hc : QHash.contains h key = false) : QHash.insert h key v = (key, v) :: h := by
  unfold QHash.insert
  rw [QHash.remove_of_not_contains h key hc]

/-- The method `resource` on a key that is in the cache. -/
theorem resource_of_cached (env : Env) (s r : String) (w : World)
    (h : QHash.contains w.d.resourceCache (cacheKey w s r) = true) :
    resource env s r w = some (QHash.value w.d.resourceCache (cacheKey w s r), w) := by
  unfold cacheKey at h
  simp [resource, h, cacheKey]

/-- The method `resource` on a key that is not in the cache, with its storage registered. -/
theorem resource_of_not_cached (env : Env) (s r : String) (w : World)
    (storage : KisResourceStorage)
    (h : QHash.contains w.d.resourceCache (cacheKey w s r) = false)
    (hs : QMap.find w.d.storages (normalizedStorageLocation w s) = some storage) :
    resource env s r w =
      some (env.storageResource w.trace w.fs storage r,
        match env.storageResource w.trace w.fs storage r with
        | some handle =>
          { w.emit (Event.storageResource storage.location r) with
            d := { w.d with resourceCache := (cacheKey w s r, some handle) :: w.d.resourceCache } }
        | none => w.emit (Event.storageResource storage.location r)) := by
  have h2 := h
  unfold cacheKey at h2
  cases hr : env.storageResource w.trace w.fs storage r with
  | none => simp [resource, h2, hs, hr]
  | some handle =>
    have hi := QHash.insert_of_not_contains w.d.resourceCache (cacheKey w s r) (some handle) h
    unfold cacheKey at hi
    simp [resource, h2, hs, hr, World.emit, hi, cacheKey]

/-- A call of `resource` that leaves the world as it was found its key in the cache. -/
theorem cached_of_resource_unchanged (env : Env) (s r : String) (w : World) (handle : KoResourceSP)
    (h : resource env s r w = some (handle, w)) :
    QHash.contains w.d.resourceCache (cacheKey w s r) = true := by
  by_contra hc
  have hc2 : QHash.contains w.d.resourceCache (cacheKey w s r) = false := by simpa using hc
  cases hs : QMap.find w.d.storages (normalizedStorageLocation w s) with
  | none =>
    unfold cacheKey at hc2
    simp [resource, hc2, hs] at h
  | some storage =>
    rw [resource_of_not_cached env s r w storage hc2 hs] at h
    simp only [Option.some.injEq, Prod.mk.injEq] at h
    cases hr : env.storageResource w.trace w.fs storage r with
    | none =>
      rw [hr] at h
      have ht := congrArg World.trace h.2
      simp only [World.emit] at ht
      have := List.self_eq_append_right.mp ht.symm
      simp at this
    | some x =>
      rw [hr] at h
      have ht := congrArg World.trace h.2
      simp only [World.emit] at ht
      have := List.self_eq_append_right.mp ht.symm
      simp at this

/-- A handle that `resource` answered is in the cache afterwards. -/
theorem cached_after_resource (env : Env) (s r : String) (w w1 : World) (handle : Nat)
    (h : resource env s r w = some (some handle, w1)) :
    QHash.contains w1.d.resourceCache (cacheKey w1 s r) = true := by
  cases hc : QHash.contains w.d.resourceCache (cacheKey w s r) with
  | true =>
    rw [resource_of_cached env s r w hc] at h
    simp only [Option.some.injEq, Prod.mk.injEq] at h
    rw [← h.2]
    exact hc
  | false =>
    cases hs : QMap.find w.d.storages (normalizedStorageLocation w s) with
    | none =>
      unfold cacheKey at hc
      simp [resource, hc, hs] at h
    | some storage =>
      rw [resource_of_not_cached env s r w storage hc hs] at h
      simp only [Option.some.injEq, Prod.mk.injEq] at h
      obtain ⟨h1, h2⟩ := h
      rw [h1] at h2
      rw [← h2]
      simp [QHash.contains, cacheKey, normalizedStorageLocation, resourceLocationBase, World.emit]

/-- Claim C12 (`resourceCached` is a pure existence check).  The method takes the
world and answers a Boolean, so it changes nothing; its answer is whether the
key of the call is in the runtime cache, and depends on the cache and the root
only.  It answers true exactly when `resource` with the same arguments is a
cache hit: the call answers the cached pointer and leaves the world, trace
included, as it was.  In particular it answers true right after `resource`
answered a (non-null) handle for those arguments. -/
theorem resourceCached_iff_cache_hit (env : Env) (w : World)
    (storageLocation resourceLocation : String) :
    resourceCached w storageLocation resourceLocation =
      QHash.contains w.d.resourceCache (cacheKey w storageLocation resourceLocation) ∧
    (resourceCached w storageLocation resourceLocation = true ↔
      resource env storageLocation resourceLocation w =
        some (QHash.value w.d.resourceCache (cacheKey w storageLocation resourceLocation), w)) ∧
    (resourceCached w storageLocation resourceLocation = true ↔
      ∃ handle, resource env storageLocation resourceLocation w = some (handle, w)) ∧
    (∀ w2 : World, w2.d.resourceCache = w.d.resourceCache →
      w2.d.resourceLocation = w.d.resourceLocation →
      resourceCached w2 storageLocation resourceLocation =
        resourceCached w storageLocation resourceLocation) ∧
    (∀ handle w1, resource env storageLocation resourceLocation w = some (some handle, w1) →
      resourceCached w1 storageLocation resourceLocation = true) := by
  refine ⟨rfl, ⟨fun h => resource_of_cached env _ _ w h,
      fun h => cached_of_resource_unchanged env _ _ w _ h⟩,
    ⟨fun h => ⟨_, resource_of_cached env _ _ w h⟩,
      fun ⟨handle, h⟩ => cached_of_resource_unchanged env _ _ w handle h⟩, ?_,
    fun handle w1 h => cached_after_resource env _ _ w w1 handle h⟩
  intro w2 hcache hroot
  simp [resourceCached, normalizedStorageLocation, resourceLocationBase, hcache, hroot]

/-- Claim C14 (no empty handle is ever cached).  A call of `resource` whose storage
is registered always answers.  If no entry of the cache held the null pointer
before, none does after.  On a miss whose fetch yields nothing the answer is the
null pointer, the cache is as before and `resourceCached` stays false for the
key; on a miss whose fetch yields a handle the answer is that handle, the cache
is the old one with the one new entry for the key, and every other key is
looked up as before. -/
theorem resource_never_caches_null (env : Env) (w : World)
    (storageLocation resourceLocation : String) (storage : KisResourceStorage)
    (hregistered :
      QMap.find w.d.storages (normalizedStorageLocation w storageLocation) = some storage) :
    ∃ handle w1, resource env storageLocation resourceLocation w = some (handle, w1) ∧
      ((∀ e ∈ w.d.resourceCache, e.2 ≠ none) → ∀ e ∈ w1.d.resourceCache, e.2 ≠ none) ∧
      (resourceCached w storageLocation resourceLocation = false →
        env.storageResource w.trace w.fs storage resourceLocation = none →
        handle = none ∧ w1.d.resourceCache = w.d.resourceCache ∧
          resourceCached w1 storageLocation resourceLocation = false) ∧
      (resourceCached w storageLocation resourceLocation = false →
        ∀ h, env.storageResource w.trace w.fs storage resourceLocation = some h →
          handle = some h ∧
          w1.d.resourceCache =
            (cacheKey w storageLocation resourceLocation, some h) :: w.d.resourceCache ∧
          resourceCached w1 storageLocation resourceLocation = true ∧
          ∀ key, key ≠ cacheKey w storageLocation resourceLocation →
            QHash.contains w1.d.resourceCache key = QHash.contains w.d.resourceCache key ∧
            QHash.value w1.d.resourceCache key = QHash.value w.d.resourceCache key) := by
  cases hc : QHash.contains w.d.resourceCache (cacheKey w storageLocation resourceLocation) with
  | true =>
    have hrc : resourceCached w storageLocation resourceLocation = true := hc
    refine ⟨_, _, resource_of_cached env _ _ w hc, fun h => h, ?_, ?_⟩
    · intro h
      rw [hrc] at h
      exact Bool.noConfusion h
    · intro h
      rw [hrc] at h
      exact Bool.noConfusion h
  | false =>
    refine ⟨_, _, resource_of_not_cached env _ _ w storage hc hregistered, ?_, ?_, ?_⟩
    · intro hall e he
      cases hr : env.storageResource w.trace w.fs storage resourceLocation with
      | none =>
        rw [hr] at he
        exact hall e he
      | some x =>
        rw [hr] at he
        rcases List.mem_cons.mp he with he | he
        · rw [he]
          simp
        · exact hall e he
    · intro _ hr
      rw [hr]
      exact ⟨rfl, rfl, hc⟩
    · intro _ h hr
      rw [hr]
      refine ⟨rfl, rfl, ?_, ?_⟩
      · simp [resourceCached, QHash.contains, cacheKey, normalizedStorageLocation,
          resourceLocationBase, World.emit]
      · intro key hkey
        have hk : ¬ cacheKey w storageLocation resourceLocation = key := fun e => hkey e.symm
        simp [QHash.contains, QHash.value, hk]

/-- Witness for C12: `p.kpp` is not cached in `cold` and is in `warm`, the world
after the lookup. -/
theorem resourceCached_iff_cache_hit_witness :
    resourceCached cold "" "p.kpp" = false ∧
      resource sampleEnv "" "p.kpp" cold = some (some 7, warm) ∧
      resourceCached warm "" "p.kpp" = true ∧
      resource sampleEnv "" "p.kpp" warm =
        some (QHash.value warm.d.resourceCache (cacheKey warm "" "p.kpp"), warm) :=
  ⟨by decide, by decide,
    (resourceCached_iff_cache_hit sampleEnv cold "" "p.kpp").2.2.2.2 7 warm (by decide),
    (resourceCached_iff_cache_hit sampleEnv warm "" "p.kpp").2.1.mp (by decide)⟩

/-- Witness for C14: in `cold` the root folder storage is registered; the lookup
of `p.kpp` caches handle 7, the lookup of a file the storage does not have
answers the null pointer and caches nothing. -/
theorem resource_never_caches_null_witness :
    (∃ handle w1, resource sampleEnv "" "p.kpp" cold = some (handle, w1) ∧
      ((∀ e ∈ cold.d.resourceCache, e.2 ≠ none) → ∀ e ∈ w1.d.resourceCache, e.2 ≠ none) ∧
      (resourceCached cold "" "p.kpp" = false →
        sampleEnv.storageResource cold.trace cold.fs ⟨"/r", StorageType.Folder⟩ "p.kpp" = none →
        handle = none ∧ w1.d.resourceCache = cold.d.resourceCache ∧
          resourceCached w1 "" "p.kpp" = false) ∧
      (resourceCached cold "" "p.kpp" = false →
        ∀ h, sampleEnv.storageResource cold.trace cold.fs ⟨"/r", StorageType.Folder⟩ "p.kpp" =
            some h →
          handle = some h ∧
          w1.d.resourceCache = (cacheKey cold "" "p.kpp", some h) :: cold.d.resourceCache ∧
          resourceCached w1 "" "p.kpp" = true ∧
          ∀ key, key ≠ cacheKey cold "" "p.kpp" →
            QHash.contains w1.d.resourceCache key = QHash.contains cold.d.resourceCache key ∧
            QHash.value w1.d.resourceCache key = QHash.value cold.d.resourceCache key)) ∧
    resource sampleEnv "" "p.kpp" cold = some (some 7, warm) ∧
    warm.d.resourceCache = [(("/r", "p.kpp"), some 7)] ∧
    (resource sampleEnv "" "q.kpp" cold).map Prod.fst = some none ∧
    (resource sampleEnv "" "q.kpp" cold).map (fun a => a.2.d.resourceCache) = some [] :=
  ⟨resource_never_caches_null sampleEnv cold "" "p.kpp" ⟨"/r", StorageType.Folder⟩ (by decide),
    by decide, by decide, by decide, by decide⟩

end KisResourceLocator
